import Mathlib

/-!
Verification of the vcr-proxy request-matching and caching engine.

The definitions below are a shallow embedding of the Python sources
(`vcr_proxy/matching.py`, `vcr_proxy/storage.py`, `vcr_proxy/recording.py`,
`vcr_proxy/proxy.py`, `vcr_proxy/route_config.py`).  Python strings are
Lean `String` values, bytes are `List Nat` (each element a byte value),
Python dicts are association lists in insertion order, and JSON documents
are values of an inductive `Json` type.  Filesystem state is an explicit
`FS` value; a Python exception is an `Except` error.  Machine-level detail
that the engine never depends on (e.g. float JSON numbers) is modelled by
the corresponding restriction of the embedding (JSON numbers are integers).
-/

namespace VcrProxy

/-! ## Byte strings and character-level helpers -/

/-- A byte string: each element is a byte value `< 256`. -/
abbrev Bytes := List Nat

/-- Python `<=` on strings is code-point lexicographic order, which is
the lexicographic order on the underlying char lists. -/
def pyLe (a b : String) : Prop := a.data ≤ b.data

instance : DecidableRel pyLe := fun a b => inferInstanceAs (Decidable (a.data ≤ b.data))

/-- Python `str.lower()` restricted to ASCII (all header names and
configured ignore values in this system are ASCII). -/
def pyLowerChar (c : Char) : Char :=
  if 65 ≤ c.val ∧ c.val ≤ 90 then Char.ofNat (c.toNat + 32) else c

/-- Python `str.lower()` on a string (ASCII case folding). -/
def pyLower (s : String) : String := String.mk (s.data.map pyLowerChar)

/-- Python `needle in haystack` substring containment on char lists. -/
def charListContainsSub (haystack needle : List Char) : Bool :=
  needle.isPrefixOf haystack ||
    match haystack with
    | [] => false
    | _ :: rest => charListContainsSub rest needle

/-- Python `needle in haystack` substring containment on strings. -/
def pyContains (haystack needle : String) : Bool :=
  charListContainsSub haystack.data needle.data

/-- Decimal digits of a natural number, most significant first
(fuel-driven so that it reduces in the kernel). -/
def natDecAux : Nat → Nat → List Char
  | 0, _ => []
  | _, 0 => []
  | fuel + 1, n => natDecAux fuel (n / 10) ++ [Char.ofNat (48 + n % 10)]

/-- Decimal rendering of a natural number. -/
def natToDec (n : Nat) : List Char :=
  if n = 0 then ['0'] else natDecAux (n + 1) n

/-- Decimal rendering of an integer, as Python `repr` of an int. -/
def intToDec : Int → List Char
  | .ofNat n => natToDec n
  | .negSucc n => '-' :: natToDec (n + 1)

/-! ## UTF-8 encoding and decoding -/

/-- UTF-8 encoding of one code point. -/
def utf8EncodeChar (c : Char) : Bytes :=
  let n := c.toNat
  if n < 128 then [n]
  else if n < 2048 then [192 + n / 64, 128 + n % 64]
  else if n < 65536 then [224 + n / 4096, 128 + n / 64 % 64, 128 + n % 64]
  else [240 + n / 262144, 128 + n / 4096 % 64, 128 + n / 64 % 64, 128 + n % 64]

/-- Python `s.encode("utf-8")`. -/
def utf8Encode (s : String) : Bytes := s.data.flatMap utf8EncodeChar

/-- True when `b` is a UTF-8 continuation byte. -/
def isCont (b : Nat) : Bool := 128 ≤ b ∧ b < 192

/-- UTF-8 decoding with replacement of invalid sequences by U+FFFD,
modelling Python `bytes.decode("utf-8", errors="replace")`.  Fuel-driven;
the fuel is the length of the input. -/
def utf8DecodeAux : Nat → Bytes → List Char
  | 0, _ => []
  | _, [] => []
  | fuel + 1, b :: rest =>
    if b < 128 then Char.ofNat b :: utf8DecodeAux fuel rest
    else if 194 ≤ b ∧ b ≤ 223 then
      match rest with
      | b2 :: rest2 =>
        if isCont b2 then Char.ofNat ((b - 192) * 64 + (b2 - 128)) :: utf8DecodeAux fuel rest2
        else Char.ofNat 65533 :: utf8DecodeAux fuel rest
      | [] => [Char.ofNat 65533]
    else if 224 ≤ b ∧ b ≤ 239 then
      match rest with
      | b2 :: b3 :: rest3 =>
        let lo2 := if b = 224 then 160 else 128
        let hi2 := if b = 237 then 159 else 191
        if (lo2 ≤ b2 ∧ b2 ≤ hi2) ∧ isCont b3 then
          Char.ofNat ((b - 224) * 4096 + (b2 - 128) * 64 + (b3 - 128)) :: utf8DecodeAux fuel rest3
        else Char.ofNat 65533 :: utf8DecodeAux fuel rest
      | _ => Char.ofNat 65533 :: utf8DecodeAux fuel rest.tail
    else if 240 ≤ b ∧ b ≤ 244 then
      match rest with
      | b2 :: b3 :: b4 :: rest4 =>
        let lo2 := if b = 240 then 144 else 128
        let hi2 := if b = 244 then 143 else 191
        if (lo2 ≤ b2 ∧ b2 ≤ hi2) ∧ isCont b3 ∧ isCont b4 then
          Char.ofNat ((b - 240) * 262144 + (b2 - 128) * 4096 + (b3 - 128) * 64 + (b4 - 128)) ::
            utf8DecodeAux fuel rest4
        else Char.ofNat 65533 :: utf8DecodeAux fuel rest
      | _ => Char.ofNat 65533 :: utf8DecodeAux fuel rest.tail
    else Char.ofNat 65533 :: utf8DecodeAux fuel rest

/-- Python `bytes.decode("utf-8", errors="replace")`. -/
def utf8DecodeReplace (bs : Bytes) : String := String.mk (utf8DecodeAux bs.length bs)

/-! ## Base64 -/

/-- The standard base64 alphabet as a list of chars. -/
def b64Alphabet : List Char :=
  "ABCDEFGHIJKLMNOPQRSTUVWXYZabcdefghijklmnopqrstuvwxyz0123456789+/".data

/-- Value of one base64 alphabet character, if it is one. -/
def b64Value (c : Char) : Option Nat :=
  if 65 ≤ c.val ∧ c.val ≤ 90 then some (c.toNat - 65)
  else if 97 ≤ c.val ∧ c.val ≤ 122 then some (c.toNat - 71)
  else if 48 ≤ c.val ∧ c.val ≤ 57 then some (c.toNat + 4)
  else if c = '+' then some 62
  else if c = '/' then some 63
  else none

/-- Base64 encoding of a byte string, as Python
`base64.b64encode(b).decode("ascii")`. -/
def b64encode : Bytes → String
  | [] => ""
  | [a] =>
    String.mk [b64Alphabet.getD (a / 4) '?', b64Alphabet.getD (a % 4 * 16) '?', '=', '=']
  | [a, b] =>
    String.mk [b64Alphabet.getD (a / 4) '?', b64Alphabet.getD (a % 4 * 16 + b / 16) '?',
      b64Alphabet.getD (b % 16 * 4) '?', '=']
  | a :: b :: c :: rest =>
    String.mk [b64Alphabet.getD (a / 4) '?', b64Alphabet.getD (a % 4 * 16 + b / 16) '?',
      b64Alphabet.getD (b % 16 * 4 + c / 64) '?', b64Alphabet.getD (c % 64) '?'] ++ b64encode rest

/-- Decoding of the 4-character base64 groups; `none` models the
`binascii.Error` Python raises on incorrect padding. -/
def b64decodeGroups : List Char → Option Bytes
  | [] => some []
  | c1 :: c2 :: c3 :: c4 :: rest =>
    match b64Value c1, b64Value c2 with
    | some v1, some v2 =>
      if c3 = '=' ∧ c4 = '=' ∧ rest = [] then some [v1 * 4 + v2 / 16]
      else
        match b64Value c3 with
        | some v3 =>
          if c4 = '=' ∧ rest = [] then some [v1 * 4 + v2 / 16, v2 % 16 * 16 + v3 / 4]
          else
            match b64Value c4 with
            | some v4 =>
              match b64decodeGroups rest with
              | some bs => some ([v1 * 4 + v2 / 16, v2 % 16 * 16 + v3 / 4, v3 % 4 * 64 + v4] ++ bs)
              | none => none
            | none => none
        | none => none
    | _, _ => none
  | _ => none

/-- Python `base64.b64decode(s)` (default `validate=False`: characters
outside the alphabet and `=` are discarded first; wrong padding is an
error, modelled as `none`). -/
def b64decode (s : String) : Option Bytes :=
  b64decodeGroups (s.data.filter fun c => (b64Value c).isSome || c = '=')

/-! ## Percent-encoding and query strings (`urllib.parse`) -/

/-- Characters never percent-encoded by `urllib.parse.quote` (the
`ALWAYS_SAFE` set; `quote_plus` is called with `safe=''`). -/
def isAlwaysSafe (c : Char) : Bool :=
  (65 ≤ c.val ∧ c.val ≤ 90) || (97 ≤ c.val ∧ c.val ≤ 122) ||
    (48 ≤ c.val ∧ c.val ≤ 57) || c = '_' || c = '.' || c = '-' || c = '~'

/-- Upper-case hex digit of a value `< 16`. -/
def hexDigitUpper (n : Nat) : Char :=
  if n < 10 then Char.ofNat (48 + n) else Char.ofNat (55 + n)

/-- Python `urllib.parse.quote_plus(s, safe='')`: space becomes `+`, safe
characters pass through, and every other character is UTF-8 encoded with
each byte rendered `%XX`. -/
def quote_plus (s : String) : String :=
  String.mk <| s.data.flatMap fun c =>
    if c = ' ' then ['+']
    else if isAlwaysSafe c then [c]
    else (utf8EncodeChar c).flatMap fun b => ['%', hexDigitUpper (b / 16), hexDigitUpper (b % 16)]

/-- Value of a hex digit character, if it is one. -/
def hexVal (c : Char) : Option Nat :=
  if 48 ≤ c.val ∧ c.val ≤ 57 then some (c.toNat - 48)
  else if 65 ≤ c.val ∧ c.val ≤ 70 then some (c.toNat - 55)
  else if 97 ≤ c.val ∧ c.val ≤ 102 then some (c.toNat - 87)
  else none

/-- Consume the maximal prefix of `%XX` escapes, returning the decoded
bytes and the remaining characters. -/
def collectPct : List Char → Bytes × List Char
  | '%' :: h1 :: h2 :: rest =>
    match hexVal h1, hexVal h2 with
    | some a, some b =>
      let p := collectPct rest
      ((a * 16 + b) :: p.1, p.2)
    | _, _ => ([], '%' :: h1 :: h2 :: rest)
  | l => ([], l)

/-- Python `urllib.parse.unquote` on a plus-substituted string: maximal
runs of `%XX` escapes decode as UTF-8 bytes with replacement; a stray `%`
passes through unchanged.  Fuel-driven. -/
def unquoteAux : Nat → List Char → List Char
  | 0, _ => []
  | _, [] => []
  | fuel + 1, '%' :: rest =>
    let p := collectPct ('%' :: rest)
    if p.1.isEmpty then '%' :: unquoteAux fuel rest
    else utf8DecodeAux p.1.length p.1 ++ unquoteAux fuel p.2
  | fuel + 1, c :: rest => c :: unquoteAux fuel rest

/-- Python `urllib.parse.unquote_plus`: `+` means space, then `%XX`
escapes decode. -/
def unquote_plus (s : String) : String :=
  let plussed := s.data.map fun c => if c = '+' then ' ' else c
  String.mk (unquoteAux plussed.length plussed)

/-- Python `str.split(sep)` for a one-character separator (note that the
result is never empty and empty fields are kept). -/
def splitOnCharAux (sep : Char) : List Char → List Char → List (List Char)
  | acc, [] => [acc.reverse]
  | acc, c :: rest =>
    if c = sep then acc.reverse :: splitOnCharAux sep [] rest
    else splitOnCharAux sep (c :: acc) rest

/-- Python `str.split(sep)` on strings. -/
def pySplit (sep : Char) (s : String) : List String :=
  (splitOnCharAux sep [] s.data).map String.mk

/-- Split at the first occurrence of `sep`, as `str.split(sep, 1)`;
`none` when the separator does not occur. -/
def splitFirst (sep : Char) : List Char → Option (List Char × List Char)
  | [] => none
  | c :: rest =>
    if c = sep then some ([], rest)
    else (splitFirst sep rest).map fun p => (c :: p.1, p.2)

/-- Python `urllib.parse.parse_qsl(qs, keep_blank_values=True)`: split on
`&`, skip empty fields, split each field at the first `=` (a field with
no `=` keeps a blank value), and percent-decode names and values. -/
def parse_qsl (qs : String) : List (String × String) :=
  (pySplit '&' qs).filterMap fun field =>
    if field = "" then none
    else
      match splitFirst '=' field.data with
      | some p => some (unquote_plus (String.mk p.1), unquote_plus (String.mk p.2))
      | none => some (unquote_plus field, "")

/-- Append `v` to the entry for `k`, creating it at the end when absent
(Python dict insertion-order semantics of `parse_qs` grouping). -/
def addToMultiDict (d : List (String × List String)) (k : String) (v : String) :
    List (String × List String) :=
  match d with
  | [] => [(k, [v])]
  | (k0, vs) :: rest =>
    if k0 = k then (k0, vs ++ [v]) :: rest
    else (k0, vs) :: addToMultiDict rest k v

/-- Python `urllib.parse.parse_qs(qs, keep_blank_values=True)`. -/
def parse_qs (qs : String) : List (String × List String) :=
  (parse_qsl qs).foldl (fun d kv => addToMultiDict d kv.1 kv.2) []

/-- Python `urllib.parse.urlencode(pairs, doseq=True)` for pairs whose
values are lists of strings: one `k=v` field per list element, joined
with `&`, both sides `quote_plus`-encoded. -/
def urlencodeDoseq (params : List (String × List String)) : String :=
  String.intercalate "&" <|
    params.flatMap fun kv => kv.2.map fun v => quote_plus kv.1 ++ "=" ++ quote_plus v

/-! ## JSON documents

JSON values as Python `json.loads` produces them, with the one modelling
restriction that numbers are integers (the engine under verification
never computes with numeric bodies; bodies containing floats simply fall
outside the verified parse domain).  Object fields are kept in insertion
order, as Python dicts do. -/

/-- A JSON document. -/
inductive Json where
  | null : Json
  | bool (b : Bool) : Json
  | num (n : Int) : Json
  | str (s : String) : Json
  | arr (xs : List Json) : Json
  | obj (fs : List (String × Json)) : Json

/-- Lower-case hex digit of a value `< 16`. -/
def hexDigitLower (n : Nat) : Char :=
  if n < 10 then Char.ofNat (48 + n) else Char.ofNat (87 + n)

/-- Four lower-case hex digits of a value `< 65536`. -/
def hex4 (n : Nat) : List Char :=
  [hexDigitLower (n / 4096 % 16), hexDigitLower (n / 256 % 16),
   hexDigitLower (n / 16 % 16), hexDigitLower (n % 16)]

/-- Escaping of one character inside a JSON string literal, per
`json.dumps` with its default `ensure_ascii=True`: the two-character
shortcuts, `\u00XX` for other control characters, `\uXXXX` (with a
surrogate pair beyond the BMP) for all non-ASCII. -/
def jsonEscapeChar (c : Char) : List Char :=
  if c = '"' then ['\\', '"']
  else if c = '\\' then ['\\', '\\']
  else if c = Char.ofNat 10 then ['\\', 'n']
  else if c = Char.ofNat 13 then ['\\', 'r']
  else if c = Char.ofNat 9 then ['\\', 't']
  else if c = Char.ofNat 8 then ['\\', 'b']
  else if c = Char.ofNat 12 then ['\\', 'f']
  else if c.val < 32 ∨ 127 ≤ c.val then
    if c.toNat < 65536 then '\\' :: 'u' :: hex4 c.toNat
    else
      ('\\' :: 'u' :: hex4 (55296 + (c.toNat - 65536) / 1024)) ++
        ('\\' :: 'u' :: hex4 (56320 + (c.toNat - 65536) % 1024))
  else [c]

/-- A JSON string literal: quoted and escaped. -/
def jsonQuote (s : String) : String :=
  "\"" ++ String.mk (s.data.flatMap jsonEscapeChar) ++ "\""

/-- Order of object fields by key, in Python `sorted` code-point order.
Python dict keys are unique, so `sorted(d.items())` never compares two
equal keys and ordering by key alone is exact. -/
def keyLe {α : Type} (p q : String × α) : Prop := pyLe p.1 q.1

instance {α : Type} : DecidableRel (@keyLe α) := fun p q => inferInstanceAs (Decidable (pyLe p.1 q.1))

/-- Sort an association list by key (Python `sorted(d.items())` for a
dict, whose keys are unique). -/
def sortPairsByKey {α : Type} (l : List (String × α)) : List (String × α) :=
  List.insertionSort keyLe l

mutual

/-- Compact serialization of a JSON value in its given field order, with
separators `,` and `:`. -/
def serialize : Json → String
  | .null => "null"
  | .bool true => "true"
  | .bool false => "false"
  | .num n => String.mk (intToDec n)
  | .str s => jsonQuote s
  | .arr xs => "[" ++ String.intercalate "," (serializeList xs) ++ "]"
  | .obj fs => "\x7b" ++ String.intercalate "," (serializeFields fs) ++ "\x7d"

/-- Serializations of the elements of an array. -/
def serializeList : List Json → List String
  | [] => []
  | x :: xs => serialize x :: serializeList xs

/-- Serializations of the fields of an object, in the given order. -/
def serializeFields : List (String × Json) → List String
  | [] => []
  | p :: fs => (jsonQuote p.1 ++ ":" ++ serialize p.2) :: serializeFields fs

end

mutual

/-- Recursive key sorting: object fields are sorted by key at every
depth, which is the field order `json.dumps(·, sort_keys=True)` emits. -/
def canon : Json → Json
  | .null => .null
  | .bool b => .bool b
  | .num n => .num n
  | .str s => .str s
  | .arr xs => .arr (canonList xs)
  | .obj fs => .obj (sortPairsByKey (canonFields fs))

/-- Key sorting inside each element of an array. -/
def canonList : List Json → List Json
  | [] => []
  | x :: xs => canon x :: canonList xs

/-- Key sorting inside each field value of an object. -/
def canonFields : List (String × Json) → List (String × Json)
  | [] => []
  | p :: fs => (p.1, canon p.2) :: canonFields fs

end

/-- Python `json.dumps(v, sort_keys=True, separators=(",", ":"))`:
serialize compactly with object keys sorted at every nesting depth. -/
def dumpsSorted (j : Json) : String := serialize (canon j)

mutual

/-- Well-formedness as Python `json.loads` guarantees it: every object
in the document has pairwise distinct keys (dict keys are unique). -/
def jwf : Json → Bool
  | .null => true
  | .bool _ => true
  | .num _ => true
  | .str _ => true
  | .arr xs => jwfList xs
  | .obj fs => decide ((fs.map Prod.fst).Nodup) && jwfFields fs

/-- Well-formedness of every element of an array. -/
def jwfList : List Json → Bool
  | [] => true
  | x :: xs => jwf x && jwfList xs

/-- Well-formedness of every field value of an object. -/
def jwfFields : List (String × Json) → Bool
  | [] => true
  | p :: fs => jwf p.2 && jwfFields fs

end

/-! ## JSON parsing (`json.loads`)

A fuel-driven recursive-descent parser for the JSON subset the engine's
verified claims range over: numbers are integers (a float or exponent
form fails to parse) and string escapes cover the JSON escape set with
`\uXXXX`, including surrogate pairs (a lone surrogate fails to parse
since it is not a scalar value).  Repeated object keys overwrite in
place, as Python dict insertion does. -/

/-- Skip JSON whitespace. -/
def skipWs : List Char → List Char
  | [] => []
  | c :: rest =>
    if c = ' ' ∨ c = Char.ofNat 9 ∨ c = Char.ofNat 10 ∨ c = Char.ofNat 13 then skipWs rest
    else c :: rest

/-- Parse four hex digits. -/
def parseHex4 : List Char → Option (Nat × List Char)
  | h1 :: h2 :: h3 :: h4 :: rest =>
    match hexVal h1, hexVal h2, hexVal h3, hexVal h4 with
    | some a, some b, some c, some d => some (a * 4096 + b * 256 + c * 16 + d, rest)
    | _, _, _, _ => none
  | _ => none

/-- Parse the body of a JSON string literal (after the opening quote),
returning the decoded characters and the input after the closing quote.
Fuel-driven. -/
def parseJStringF : Nat → List Char → Option (List Char × List Char)
  | 0, _ => none
  | _ + 1, [] => none
  | f + 1, c :: rest =>
    if c = '"' then some ([], rest)
    else if c = '\\' then
      match rest with
      | [] => none
      | e :: rest2 =>
        if e = 'u' then
          match parseHex4 rest2 with
          | some (n, rest3) =>
            if 55296 ≤ n ∧ n ≤ 56319 then
              match rest3 with
              | '\\' :: 'u' :: rest4 =>
                match parseHex4 rest4 with
                | some (m, rest5) =>
                  if 56320 ≤ m ∧ m ≤ 57343 then
                    (parseJStringF f rest5).map fun p =>
                      (Char.ofNat (65536 + (n - 55296) * 1024 + (m - 56320)) :: p.1, p.2)
                  else none
                | none => none
              | _ => none
            else if 56320 ≤ n ∧ n ≤ 57343 then none
            else (parseJStringF f rest3).map fun p => (Char.ofNat n :: p.1, p.2)
          | none => none
        else
          let dec : Option Char :=
            if e = '"' then some '"'
            else if e = '\\' then some '\\'
            else if e = '/' then some '/'
            else if e = 'n' then some (Char.ofNat 10)
            else if e = 'r' then some (Char.ofNat 13)
            else if e = 't' then some (Char.ofNat 9)
            else if e = 'b' then some (Char.ofNat 8)
            else if e = 'f' then some (Char.ofNat 12)
            else none
          match dec with
          | some d => (parseJStringF f rest2).map fun p => (d :: p.1, p.2)
          | none => none
    else if c.val < 32 then none
    else (parseJStringF f rest).map fun p => (c :: p.1, p.2)

/-- Maximal prefix of decimal digits. -/
def takeDigits : List Char → List Char × List Char
  | [] => ([], [])
  | c :: rest =>
    if 48 ≤ c.val ∧ c.val ≤ 57 then
      let p := takeDigits rest
      (c :: p.1, p.2)
    else ([], c :: rest)

/-- Numeric value of a list of decimal digits. -/
def digitsToNat (ds : List Char) : Nat :=
  ds.foldl (fun acc c => acc * 10 + (c.toNat - 48)) 0

/-- Parse a JSON integer literal (no leading zeros; a fraction or
exponent suffix is outside the modelled subset and fails). -/
def parseNum (l : List Char) : Option (Json × List Char) :=
  let signed := match l with
    | '-' :: r => (true, r)
    | _ => (false, l)
  let p := takeDigits signed.2
  match p.1 with
  | [] => none
  | d :: ds =>
    if d = '0' ∧ ds ≠ [] then none
    else
      match p.2 with
      | c :: _ =>
        if c = '.' ∨ c = 'e' ∨ c = 'E' then none
        else some (.num (if signed.1 then -(digitsToNat p.1 : Int) else (digitsToNat p.1 : Int)), p.2)
      | [] => some (.num (if signed.1 then -(digitsToNat p.1 : Int) else (digitsToNat p.1 : Int)), p.2)

/-- Insert a key into an association list, overwriting in place when the
key is present (Python `d[k] = v`). -/
def objInsert : List (String × Json) → String → Json → List (String × Json)
  | [], k, v => [(k, v)]
  | (k0, v0) :: rest, k, v =>
    if k0 = k then (k0, v) :: rest
    else (k0, v0) :: objInsert rest k v

mutual

/-- Parse one JSON value (leading whitespace allowed).  Fuel-driven. -/
def parseVal : Nat → List Char → Option (Json × List Char)
  | 0, _ => none
  | f + 1, l =>
    match skipWs l with
    | 'n' :: 'u' :: 'l' :: 'l' :: rest => some (.null, rest)
    | 't' :: 'r' :: 'u' :: 'e' :: rest => some (.bool true, rest)
    | 'f' :: 'a' :: 'l' :: 's' :: 'e' :: rest => some (.bool false, rest)
    | '"' :: rest =>
      match parseJStringF f rest with
      | some p => some (.str (String.mk p.1), p.2)
      | none => none
    | '[' :: rest =>
      (match skipWs rest with
       | ']' :: rest2 => some (.arr [], rest2)
       | l2 =>
         match parseElems f l2 with
         | some p => some (.arr p.1, p.2)
         | none => none)
    | '\x7b' :: rest =>
      (match skipWs rest with
       | '\x7d' :: rest2 => some (.obj [], rest2)
       | l2 =>
         match parseFields f l2 with
         | some p => some (.obj (p.1.foldl (fun d kv => objInsert d kv.1 kv.2) []), p.2)
         | none => none)
    | l2 => parseNum l2

/-- Parse a non-empty comma-separated element list up to `]`. -/
def parseElems : Nat → List Char → Option (List Json × List Char)
  | 0, _ => none
  | f + 1, l =>
    match parseVal f l with
    | some (v, rest) =>
      match skipWs rest with
      | ',' :: rest2 => (parseElems f rest2).map fun p => (v :: p.1, p.2)
      | ']' :: rest2 => some ([v], rest2)
      | _ => none
    | none => none

/-- Parse a non-empty comma-separated `"key": value` list up to the
closing brace, in textual order, duplicates kept. -/
def parseFields : Nat → List Char → Option (List (String × Json) × List Char)
  | 0, _ => none
  | f + 1, l =>
    match skipWs l with
    | '"' :: rest =>
      match parseJStringF f rest with
      | some (k, rest2) =>
        match skipWs rest2 with
        | ':' :: rest3 =>
          match parseVal f rest3 with
          | some (v, rest4) =>
            match skipWs rest4 with
            | ',' :: rest5 => (parseFields f rest5).map fun p => ((String.mk k, v) :: p.1, p.2)
            | '\x7d' :: rest5 => some ([(String.mk k, v)], rest5)
            | _ => none
          | none => none
        | _ => none
      | none => none
    | _ => none

end

/-- Python `json.loads` on the modelled subset: parse one document and
require only whitespace to follow. -/
def json_loads (s : String) : Option Json :=
  match parseVal (2 * s.data.length + 2) s.data with
  | some (v, rest) => if skipWs rest = [] then some v else none
  | none => none

/-! ## Equality of JSON documents up to key reordering

`JEquiv a b` holds exactly when `b` is obtained from `a` by permuting
object fields, at any nesting depth.  `obj_perm` permutes one object's
fields, `obj_cons` and `arr_cons` descend, and `trans` composes. -/

/-- Equality of JSON documents up to object-key reordering at any depth. -/
inductive JEquiv : Json → Json → Prop where
  | null : JEquiv .null .null
  | bool (b : Bool) : JEquiv (.bool b) (.bool b)
  | num (n : Int) : JEquiv (.num n) (.num n)
  | str (s : String) : JEquiv (.str s) (.str s)
  | arr_nil : JEquiv (.arr []) (.arr [])
  | arr_cons {x y : Json} {xs ys : List Json} :
      JEquiv x y → JEquiv (.arr xs) (.arr ys) → JEquiv (.arr (x :: xs)) (.arr (y :: ys))
  | obj_perm {fs gs : List (String × Json)} :
      fs.Perm gs → JEquiv (.obj fs) (.obj gs)
  | obj_cons (k : String) {v w : Json} {fs gs : List (String × Json)} :
      JEquiv v w → JEquiv (.obj fs) (.obj gs) →
      JEquiv (.obj ((k, v) :: fs)) (.obj ((k, w) :: gs))
  | trans {a b c : Json} : JEquiv a b → JEquiv b c → JEquiv a c

/-! ## Data model (`vcr_proxy/models.py`)

Pydantic models become structures.  `datetime` appears only as an opaque
recorded instant that pydantic round-trips through its ISO-8601 string
form, so it is modelled as that string. -/

/-- The `Literal["utf-8", "base64"]` body-encoding tag. -/
inductive BodyEncoding where
  | utf8 : BodyEncoding
  | base64 : BodyEncoding
deriving DecidableEq, Repr

/-- Serialized form of the body-encoding tag. -/
def BodyEncoding.toStr : BodyEncoding → String
  | .utf8 => "utf-8"
  | .base64 => "base64"

/-- Model `RecordedRequest`.  `query` and `headers` are Python dicts in
insertion order. -/
structure RecordedRequest where
  method : String
  path : String
  query : List (String × List String)
  headers : List (String × String)
  body : Option String := none
  body_encoding : BodyEncoding := .utf8
  content_type : Option String := none
deriving DecidableEq, Repr

/-- Model `RecordedResponse`. -/
structure RecordedResponse where
  status_code : Int
  headers : List (String × String)
  body : Option String := none
  body_encoding : BodyEncoding := .utf8
deriving DecidableEq, Repr

/-- Model `CassetteMeta` (`recorded_at` as its ISO-8601 string form). -/
structure CassetteMeta where
  recorded_at : String
  target : String
  domain : String
  vcr_proxy_version : String
deriving DecidableEq, Repr

/-- Model `Cassette`. -/
structure Cassette where
  meta : CassetteMeta
  request : RecordedRequest
  response : RecordedResponse
deriving DecidableEq, Repr

/-- Model `MatchingKey`; the field order is the declaration order
`method, path, query, body, headers`, which fixes the serialization
order of `model_dump_json`. -/
structure MatchingKey where
  method : String
  path : String
  query : Option String := none
  body : Option String := none
  headers : Option String := none
deriving DecidableEq, Repr

/-- Model `RouteMatchRule`. -/
structure RouteMatchRule where
  method : String
  path : Option String := none
  path_pattern : Option String := none
deriving DecidableEq, Repr

/-- Model `MatchedFields`. -/
structure MatchedFields where
  query_params : List String := []
  headers : List String := []
  body_fields : List String := []
deriving DecidableEq, Repr

/-- Model `RouteIgnoreConfig`. -/
structure RouteIgnoreConfig where
  headers : List String := []
  body_fields : List String := []
  query_params : List String := []
deriving DecidableEq, Repr

/-- Model `RouteMatchingOverride`. -/
structure RouteMatchingOverride where
  route : RouteMatchRule
  matched : MatchedFields := {}
  ignore : RouteIgnoreConfig := {}
deriving DecidableEq, Repr

/-! ## Small Python-semantics helpers shared by the modules -/

/-- Python `str.upper()` restricted to ASCII. -/
def pyUpperChar (c : Char) : Char :=
  if 97 ≤ c.val ∧ c.val ≤ 122 then Char.ofNat (c.toNat - 32) else c

/-- Python `str.upper()` on a string (ASCII case folding). -/
def pyUpper (s : String) : String := String.mk (s.data.map pyUpperChar)

/-- Python `s.rstrip(ch)`: remove every trailing occurrence of `ch`. -/
def pyRstrip (ch : Char) (s : String) : String :=
  String.mk (s.data.reverse.dropWhile (fun c => c = ch)).reverse

/-- Python `s.strip(ch)`: remove every leading and trailing `ch`. -/
def pyStrip (ch : Char) (s : String) : String :=
  String.mk (((s.data.dropWhile fun c => c = ch).reverse.dropWhile fun c => c = ch).reverse)

/-- Python `s.replace(a, b)` for one-character patterns. -/
def pyReplaceChar (a b : Char) (s : String) : String :=
  String.mk (s.data.map fun c => if c = a then b else c)

/-- Python `sorted` on a list of strings (code-point order, stable). -/
def sortStrings (l : List String) : List String := List.insertionSort pyLe l

/-- Python `sorted(set(xs))`: deduplicate, then sort. -/
def pySortedSet (l : List String) : List String := sortStrings l.dedup

/-- Insert into a string-valued dict, overwriting in place when the key
is present (Python `d[k] = v` / dict-comprehension collision). -/
def dictInsert (d : List (String × String)) (k v : String) : List (String × String) :=
  match d with
  | [] => [(k, v)]
  | (k0, v0) :: rest =>
    if k0 = k then (k0, v) :: rest
    else (k0, v0) :: dictInsert rest k v

/-- Python `d.get(k)` on a string dict. -/
def dictGet (d : List (String × String)) (k : String) : Option String :=
  match d.find? fun kv => kv.1 == k with
  | some kv => some kv.2
  | none => none

/-- Truthiness of an optional string (`None` and `""` are falsy). -/
def pyTruthyStr : Option String → Bool
  | none => false
  | some s => s ≠ ""

/-- Truthiness of optional bytes (`None` and `b""` are falsy). -/
def pyTruthyBytes : Option Bytes → Bool
  | none => false
  | some bs => bs ≠ []

/-! ## Request matching (`vcr_proxy/matching.py`) -/

namespace matching

/-- Full-tuple comparison Python `sorted` uses on `(key, values)` pairs
in `_normalize_query`: lexicographic on the pair, values compared as
lists of strings. -/
def qpairLe (p q : String × List String) : Prop :=
  toLex (p.1.data, p.2.map String.data) ≤ toLex (q.1.data, q.2.map String.data)

instance : DecidableRel qpairLe := fun p q =>
  inferInstanceAs (Decidable (toLex (p.1.data, p.2.map String.data) ≤ toLex (q.1.data, q.2.map String.data)))

/-- Full-tuple comparison on `(key, value)` string pairs used by
`sorted(filtered.items())` in `_normalize_headers` and
`_normalize_form_body`. -/
def hpairLe (p q : String × String) : Prop :=
  toLex (p.1.data, p.2.data) ≤ toLex (q.1.data, q.2.data)

instance : DecidableRel hpairLe := fun p q =>
  inferInstanceAs (Decidable (toLex (p.1.data, p.2.data) ≤ toLex (q.1.data, q.2.data)))

/-- Source `_normalize_form_body`: parse the form body, sort by key,
re-serialize URL-encoded. -/
def normalize_form_body (body : String) : String :=
  let parsed := parse_qs body
  let sorted_params := List.insertionSort qpairLe parsed
  urlencodeDoseq sorted_params

/-- Source `_normalize_query`: sort query parameters by key, sort
multi-values, return the URL-encoded string (`None` for an empty dict). -/
def normalize_query (query : List (String × List String)) : Option String :=
  if query = [] then none
  else
    let sorted_query :=
      List.insertionSort qpairLe (query.map fun kv => (kv.1, List.insertionSort pyLe kv.2))
    some (urlencodeDoseq sorted_query)

/-- Source `_normalize_headers`: lowercase keys, drop those in the union
of the two ignore sets, sort, and join as `k=v` pairs with `&` (`None`
when nothing remains). -/
def normalize_headers (headers : List (String × String))
    (ignore_headers : Option (List String))
    (route_ignore : Option (List String)) : Option String :=
  let ignored := (ignore_headers.getD []) ++ (route_ignore.getD []).map pyLower
  let filtered := headers.foldl
    (fun d kv =>
      if ignored.contains (pyLower kv.1) then d
      else dictInsert d (pyLower kv.1) kv.2)
    []
  if filtered = [] then none
  else
    let sorted_headers := List.insertionSort hpairLe filtered
    some (String.intercalate "&" (sorted_headers.map fun kv => kv.1 ++ "=" ++ kv.2))

/-- Source `_normalize_body`: JSON bodies are parsed, stripped of
ignored top-level fields, and re-serialized with sorted keys and compact
separators (an unparsable body passes through raw); form bodies are
normalized; anything else passes through. -/
def normalize_body (body : Option String) (content_type : Option String)
    (ignore_body_fields : Option (List String)) : Option String :=
  match body with
  | none => none
  | some b =>
    if pyTruthyStr content_type ∧ pyContains (content_type.getD "") "application/json" then
      match json_loads b with
      | some parsed =>
        let stripped :=
          match parsed, ignore_body_fields with
          | .obj fs, some fields =>
            if fields ≠ [] then
              .obj (fields.foldl (fun d f => d.filter fun p => decide (p.1 ≠ f)) fs)
            else .obj fs
          | p, _ => p
        some (dumpsSorted stripped)
      | none => some b
    else if pyTruthyStr content_type ∧
        pyContains (content_type.getD "") "application/x-www-form-urlencoded" then
      some (normalize_form_body b)
    else some b

/-- Source `compute_matching_key`. -/
def compute_matching_key (request : RecordedRequest)
    (ignore_headers : Option (List String))
    (route_ignore : Option RouteIgnoreConfig) : MatchingKey :=
  let ignore_query := match route_ignore with
    | some ri => ri.query_params
    | none => []
  let filtered_query := request.query.filter fun kv => decide (¬ ignore_query.contains kv.1)
  { method := pyUpper request.method
    path :=
      (fun p => if p = "" then "/" else p) (pyRstrip '/' (pyLower request.path))
    query := normalize_query filtered_query
    headers := normalize_headers request.headers ignore_headers
      (route_ignore.map fun ri => ri.headers)
    body := normalize_body request.body request.content_type
      (route_ignore.map fun ri => ri.body_fields) }

end matching

/-! ## SHA-256 (`hashlib.sha256`)

A direct implementation of FIPS 180-4 over byte lists, with 32-bit words
as naturals reduced mod `2^32`. -/

/-- The 32-bit modulus. -/
def M32 : Nat := 4294967296

/-- Addition mod `2^32`. -/
def add32 (a b : Nat) : Nat := (a + b) % M32

/-- Right rotation of a 32-bit word. -/
def rotr32 (n x : Nat) : Nat := ((x >>> n) ||| (x <<< (32 - n))) % M32

/-- The SHA-256 round constants. -/
def shaK : List Nat :=
  [
    1116352408, 1899447441, 3049323471, 3921009573,
    961987163, 1508970993, 2453635748, 2870763221,
    3624381080, 310598401, 607225278, 1426881987,
    1925078388, 2162078206, 2614888103, 3248222580,
    3835390401, 4022224774, 264347078, 604807628,
    770255983, 1249150122, 1555081692, 1996064986,
    2554220882, 2821834349, 2952996808, 3210313671,
    3336571891, 3584528711, 113926993, 338241895,
    666307205, 773529912, 1294757372, 1396182291,
    1695183700, 1986661051, 2177026350, 2456956037,
    2730485921, 2820302411, 3259730800, 3345764771,
    3516065817, 3600352804, 4094571909, 275423344,
    430227734, 506948616, 659060556, 883997877,
    958139571, 1322822218, 1537002063, 1747873779,
    1955562222, 2024104815, 2227730452, 2361852424,
    2428436474, 2756734187, 3204031479, 3329325298
  ]

/-- The SHA-256 initial hash value. -/
def shaH0 : List Nat :=
  [
    1779033703, 3144134277, 1013904242, 2773480762,
    1359893119, 2600822924, 528734635, 1541459225
  ]

/-- Message padding: append `0x80`, zeros, and the 64-bit big-endian bit
length, reaching a multiple of 64 bytes. -/
def shaPad (msg : Bytes) : Bytes :=
  let len := msg.length
  let bits := len * 8
  let zeros := (55 + 64 - len % 64) % 64
  msg ++ [0x80] ++ List.replicate zeros 0 ++
    [bits >>> 56 % 256, bits >>> 48 % 256, bits >>> 40 % 256, bits >>> 32 % 256,
     bits >>> 24 % 256, bits >>> 16 % 256, bits >>> 8 % 256, bits % 256]

/-- Big-endian 32-bit words of a byte list. -/
def bytesToWords : Bytes → List Nat
  | a :: b :: c :: d :: rest => (a <<< 24 ||| b <<< 16 ||| c <<< 8 ||| d) :: bytesToWords rest
  | _ => []

/-- Extend the 16 message words to the 64-word schedule (`i` counts the
words already appended beyond the first 16). -/
def extendSchedule (w : List Nat) : Nat → List Nat
  | 0 => w
  | j + 1 =>
    let wPrev := extendSchedule w j
    let t := 16 + j
    let w15 := wPrev.getD (t - 15) 0
    let w2 := wPrev.getD (t - 2) 0
    let s0 := (rotr32 7 w15) ^^^ (rotr32 18 w15) ^^^ (w15 >>> 3)
    let s1 := (rotr32 17 w2) ^^^ (rotr32 19 w2) ^^^ (w2 >>> 10)
    wPrev ++ [add32 (add32 (wPrev.getD (t - 16) 0) s0) (add32 (wPrev.getD (t - 7) 0) s1)]

/-- One compression round. -/
def compressRound (st : Nat × Nat × Nat × Nat × Nat × Nat × Nat × Nat) (kw : Nat × Nat) :
    Nat × Nat × Nat × Nat × Nat × Nat × Nat × Nat :=
  let (a, b, c, d, e, f, g, h) := st
  let s1 := (rotr32 6 e) ^^^ (rotr32 11 e) ^^^ (rotr32 25 e)
  let ch := (e &&& f) ^^^ ((M32 - 1 - e) &&& g)
  let t1 := add32 h (add32 s1 (add32 ch (add32 kw.1 kw.2)))
  let s0 := (rotr32 2 a) ^^^ (rotr32 13 a) ^^^ (rotr32 22 a)
  let mj := (a &&& b) ^^^ (a &&& c) ^^^ (b &&& c)
  let t2 := add32 s0 mj
  (add32 t1 t2, a, b, c, add32 d t1, e, f, g)

/-- Process one 64-byte chunk. -/
def processChunk (h : List Nat) (chunk : Bytes) : List Nat :=
  let w := extendSchedule (bytesToWords chunk) 48
  let st0 := (h.getD 0 0, h.getD 1 0, h.getD 2 0, h.getD 3 0,
              h.getD 4 0, h.getD 5 0, h.getD 6 0, h.getD 7 0)
  let r := (shaK.zip w).foldl compressRound st0
  [add32 (h.getD 0 0) r.1, add32 (h.getD 1 0) r.2.1, add32 (h.getD 2 0) r.2.2.1,
   add32 (h.getD 3 0) r.2.2.2.1, add32 (h.getD 4 0) r.2.2.2.2.1, add32 (h.getD 5 0) r.2.2.2.2.2.1,
   add32 (h.getD 6 0) r.2.2.2.2.2.2.1, add32 (h.getD 7 0) r.2.2.2.2.2.2.2]

/-- Split into 64-byte chunks (fuel-driven on the length). -/
def chunks64Aux : Nat → Bytes → List Bytes
  | 0, _ => []
  | _, [] => []
  | fuel + 1, l => l.take 64 :: chunks64Aux fuel (l.drop 64)

/-- The 64-byte chunks of a padded message. -/
def chunks64 (l : Bytes) : List Bytes := chunks64Aux l.length l

/-- SHA-256 digest of a byte list, as eight 32-bit words. -/
def sha256Words (msg : Bytes) : List Nat :=
  (chunks64 (shaPad msg)).foldl processChunk shaH0

/-- Eight lower-case hex digits of a 32-bit word. -/
def wordToHex (w : Nat) : List Char :=
  [hexDigitLower (w >>> 28 % 16), hexDigitLower (w >>> 24 % 16), hexDigitLower (w >>> 20 % 16),
   hexDigitLower (w >>> 16 % 16), hexDigitLower (w >>> 12 % 16), hexDigitLower (w >>> 8 % 16),
   hexDigitLower (w >>> 4 % 16), hexDigitLower (w % 16)]

/-- Python `hashlib.sha256(b).hexdigest()`. -/
def sha256hex (msg : Bytes) : String :=
  String.mk ((sha256Words msg).flatMap wordToHex)

/-- FIPS 180-4 test vector. -/
example : sha256hex [0x61, 0x62, 0x63] =
    "ba7816bf8f01cfea414140de5dae2223b00361a396177a9cb410ff61f20015ad" := by decide

/-! ## `MatchingKey.model_dump_json` and `compute_hash`

Pydantic v2 serializes a model as compact JSON in field declaration
order, emitting `null` for `None` and escaping strings as serde_json
does: the two-character shortcuts, `\u00XX` for remaining control
characters, and non-ASCII characters kept raw (no `ensure_ascii`). -/

/-- Escaping of one character in pydantic's JSON string output. -/
def pydEscapeChar (c : Char) : List Char :=
  if c = '"' then ['\\', '"']
  else if c = '\\' then ['\\', '\\']
  else if c = Char.ofNat 10 then ['\\', 'n']
  else if c = Char.ofNat 13 then ['\\', 'r']
  else if c = Char.ofNat 9 then ['\\', 't']
  else if c = Char.ofNat 8 then ['\\', 'b']
  else if c = Char.ofNat 12 then ['\\', 'f']
  else if c.val < 32 then '\\' :: 'u' :: hex4 c.toNat
  else [c]

/-- A pydantic JSON string literal. -/
def pydQuote (s : String) : String :=
  "\"" ++ String.mk (s.data.flatMap pydEscapeChar) ++ "\""

/-- A nullable pydantic JSON string. -/
def pydOptStr : Option String → String
  | none => "null"
  | some s => pydQuote s

/-- Source `MatchingKey.model_dump_json()`: compact JSON with fields in
declaration order `method, path, query, body, headers`, `None` as
`null`. -/
def MatchingKey.model_dump_json (k : MatchingKey) : String :=
  "\x7b\"method\":" ++ pydQuote k.method ++ ",\"path\":" ++ pydQuote k.path ++
    ",\"query\":" ++ pydOptStr k.query ++ ",\"body\":" ++ pydOptStr k.body ++
    ",\"headers\":" ++ pydOptStr k.headers ++ "\x7d"

namespace matching

/-- Source `compute_hash`: first 8 hex chars of SHA-256 over the UTF-8
bytes of `key.model_dump_json()`. -/
def compute_hash (key : MatchingKey) : String :=
  String.mk ((sha256hex (utf8Encode key.model_dump_json)).data.take 8)

end matching

/-! ## Recording builders (`vcr_proxy/recording.py`) -/

namespace recording

/-- The redaction placeholder. -/
def REDACTED : String := "[REDACTED]"

/-- Source `redact_headers`: replace the value of every header whose
lowercased name is in `sensitive` by the placeholder. -/
def redact_headers (headers : List (String × String)) (sensitive : List String) :
    List (String × String) :=
  headers.map fun kv => (kv.1, if sensitive.contains (pyLower kv.1) then REDACTED else kv.2)

/-- Source `is_text_content`. -/
def is_text_content (content_type : Option String) : Bool :=
  match content_type with
  | none => true
  | some ct =>
    pyContains ct "application/json" || pyContains ct "text/" ||
      pyContains ct "application/xml" || pyContains ct "application/x-www-form-urlencoded"

/-- Source `build_recorded_request` (the redacting builder used by the
forward-proxy addon). -/
def build_recorded_request (method path query_string : String)
    (headers : List (String × String)) (body : Option Bytes)
    (sensitive_headers : List String) : RecordedRequest :=
  let content_type := dictGet headers "content-type"
  let query := if query_string ≠ "" then parse_qs query_string else []
  let bodyEnc : Option String × BodyEncoding :=
    if pyTruthyBytes body ∧ is_text_content content_type then
      (some (utf8DecodeReplace (body.getD [])), .utf8)
    else if pyTruthyBytes body then
      (some (b64encode (body.getD [])), .base64)
    else (none, .utf8)
  let lowered := headers.foldl (fun d kv => dictInsert d (pyLower kv.1) kv.2) []
  { method := pyUpper method
    path := path
    query := query
    headers := redact_headers lowered sensitive_headers
    body := bodyEnc.1
    body_encoding := bodyEnc.2
    content_type := content_type }

/-- Source `build_recorded_response_from_raw` (headers keep their
original case; sensitive headers redacted). -/
def build_recorded_response_from_raw (status_code : Int)
    (headers : List (String × String)) (body : Option Bytes)
    (sensitive_headers : List String) : RecordedResponse :=
  let content_type := dictGet headers "content-type"
  let bodyEnc : Option String × BodyEncoding :=
    if pyTruthyBytes body ∧ is_text_content content_type then
      (some (utf8DecodeReplace (body.getD [])), .utf8)
    else if pyTruthyBytes body then
      (some (b64encode (body.getD [])), .base64)
    else (none, .utf8)
  { status_code := status_code
    headers := redact_headers headers sensitive_headers
    body := bodyEnc.1
    body_encoding := bodyEnc.2 }

end recording

/-! ## Proxy dispatcher (`vcr_proxy/proxy.py`) -/

/-- Source `config.ALWAYS_IGNORED_HEADERS_DEFAULT` (a frozenset; listed
here in source order). -/
def ALWAYS_IGNORED_HEADERS_DEFAULT : List String :=
  ["date", "x-request-id", "x-trace-id", "traceparent", "tracestate"]

namespace proxy

/-- Source `_is_text_content` (a duplicate of the recording module's). -/
def is_text_content (content_type : Option String) : Bool :=
  match content_type with
  | none => true
  | some ct =>
    pyContains ct "application/json" || pyContains ct "text/" ||
      pyContains ct "application/xml" || pyContains ct "application/x-www-form-urlencoded"

/-- Source `_build_recorded_request` in `proxy.py`: identical to the
recording module's builder except that it lowercases header keys and
performs NO redaction (it takes no sensitive-header set at all). -/
def build_recorded_request (method path query_string : String)
    (headers : List (String × String)) (body : Option Bytes) : RecordedRequest :=
  let content_type := dictGet headers "content-type"
  let query := if query_string ≠ "" then parse_qs query_string else []
  let bodyEnc : Option String × BodyEncoding :=
    if pyTruthyBytes body ∧ is_text_content content_type then
      (some (utf8DecodeReplace (body.getD [])), .utf8)
    else if pyTruthyBytes body then
      (some (b64encode (body.getD [])), .base64)
    else (none, .utf8)
  { method := pyUpper method
    path := path
    query := query
    headers := headers.foldl (fun d kv => dictInsert d (pyLower kv.1) kv.2) []
    body := bodyEnc.1
    body_encoding := bodyEnc.2
    content_type := content_type }

/-- An upstream `httpx.Response` as the dispatcher consumes it: status,
headers (httpx exposes names lowercased), raw content bytes. -/
structure UpstreamResponse where
  status_code : Int
  headers : List (String × String)
  content : Bytes
deriving DecidableEq, Repr

/-- Source `_build_recorded_response` in `proxy.py`: text bodies stored
decoded (`response.text`), binary bodies base64; headers kept; NO
redaction. -/
def build_recorded_response (response : UpstreamResponse) : RecordedResponse :=
  let content_type := dictGet response.headers "content-type"
  let bodyEnc : String × BodyEncoding :=
    if is_text_content content_type then (utf8DecodeReplace response.content, .utf8)
    else (b64encode response.content, .base64)
  { status_code := response.status_code
    headers := response.headers
    body := some bodyEnc.1
    body_encoding := bodyEnc.2 }

/-- The matching key `ProxyHandler.handle` computes for an inbound
request (source lines: `recorded_req = _build_recorded_request(...)`
then `compute_matching_key(recorded_req,
ignore_headers=self.settings.always_ignore_headers)`).  No route-config
ignore is consulted. -/
def handle_matching_key (always_ignore_headers : List String)
    (method path query_string : String) (headers : List (String × String))
    (body : Option Bytes) : MatchingKey :=
  matching.compute_matching_key
    (build_recorded_request method path query_string headers body)
    (some always_ignore_headers) none

/-- Source `ProxyHandler._decode_body`: `None` means empty bytes, base64
bodies decode (`none` models the `binascii.Error` escape), anything else
UTF-8 encodes. -/
def decode_body (response : RecordedResponse) : Option Bytes :=
  match response.body with
  | none => some []
  | some b =>
    if response.body_encoding = .base64 then b64decode b
    else some (utf8Encode b)

/-- The five counters of a `ProxyHandler`. -/
structure HandlerStats where
  stats_total : Nat := 0
  stats_hits : Nat := 0
  stats_misses : Nat := 0
  stats_recorded : Nat := 0
  stats_errors : Nat := 0
deriving DecidableEq, Repr

end proxy

/-! ## Cassette storage (`vcr_proxy/storage.py`)

The cassette directory tree is an explicit value: the set of existing
domain directories and a map from `(domain, filename)` to file content.
File content is carried as the parsed JSON document; the byte-level JSON
grammar is not re-verified here, so `model_dump_json(indent=2)` is the
document-building half `dumpCassette` and `model_validate_json` is the
validating half `validateCassette` (pydantic's `ValidationError` is the
`Except.error` case). -/

namespace storage

/-- The cassette tree under `cassettes_dir`: existing domain directories
and `(domain, filename) ↦ document` file contents. -/
structure FS where
  dirs : List String := []
  files : List ((String × String) × Json) := []

/-- Read a file. -/
def fileGet (files : List ((String × String) × Json)) (k : String × String) : Option Json :=
  match files.find? fun e => e.1 == k with
  | some e => some e.2
  | none => none

/-- Write a file, overwriting in place. -/
def fileSet (files : List ((String × String) × Json)) (k : String × String) (v : Json) :
    List ((String × String) × Json) :=
  match files with
  | [] => [(k, v)]
  | e :: rest => if e.1 == k then (k, v) :: rest else e :: fileSet rest k v

/-- Source `_path_to_slug`: strip `/` at both ends, `/` to `_`, any
character outside `[a-zA-Z0-9_-]` to `_`, empty to `"root"`. -/
def path_to_slug (path : String) : String :=
  let slug := pyReplaceChar '/' '_' (pyStrip '/' path)
  let slug := String.mk <| slug.data.map fun c =>
    if (97 ≤ c.val ∧ c.val ≤ 122) ∨ (65 ≤ c.val ∧ c.val ≤ 90) ∨
        (48 ≤ c.val ∧ c.val ≤ 57) ∨ c = '_' ∨ c = '-' then c
    else '_'
  if slug = "" then "root" else slug

/-- Source `CassetteStorage._cassette_filename`. -/
def cassette_filename (matching_key : MatchingKey) : String :=
  matching_key.method ++ "_" ++ path_to_slug matching_key.path ++ "_" ++
    matching.compute_hash matching_key ++ ".json"

/-- A nullable string as a JSON value. -/
def optStrJ : Option String → Json
  | none => .null
  | some s => .str s

/-- The cassette document of a `RecordedRequest`, fields in declaration
order as pydantic serializes them. -/
def dumpRecordedRequest (r : RecordedRequest) : Json :=
  .obj [("method", .str r.method), ("path", .str r.path),
        ("query", .obj (r.query.map fun kv => (kv.1, .arr (kv.2.map Json.str)))),
        ("headers", .obj (r.headers.map fun kv => (kv.1, .str kv.2))),
        ("body", optStrJ r.body),
        ("body_encoding", .str r.body_encoding.toStr),
        ("content_type", optStrJ r.content_type)]

/-- The cassette document of a `RecordedResponse`. -/
def dumpRecordedResponse (r : RecordedResponse) : Json :=
  .obj [("status_code", .num r.status_code),
        ("headers", .obj (r.headers.map fun kv => (kv.1, .str kv.2))),
        ("body", optStrJ r.body),
        ("body_encoding", .str r.body_encoding.toStr)]

/-- The cassette document `cassette.model_dump_json(indent=2)` writes. -/
def dumpCassette (c : Cassette) : Json :=
  .obj [("meta", .obj [("recorded_at", .str c.meta.recorded_at),
                       ("target", .str c.meta.target),
                       ("domain", .str c.meta.domain),
                       ("vcr_proxy_version", .str c.meta.vcr_proxy_version)]),
        ("request", dumpRecordedRequest c.request),
        ("response", dumpRecordedResponse c.response)]

/-- Validate every element of a list, in order. -/
def mapMOpt : List α → (α → Option β) → Option (List β)
  | [], _ => some []
  | x :: xs, f =>
    match f x with
    | some y => (mapMOpt xs f).map fun ys => y :: ys
    | none => none

/-- Field lookup in a JSON object. -/
def jGet (j : Json) (k : String) : Option Json :=
  match j with
  | .obj fs => (fs.find? fun p => p.1 == k).map Prod.snd
  | _ => none

/-- Validate a JSON string. -/
def asStr : Json → Option String
  | .str s => some s
  | _ => none

/-- Validate a nullable JSON string. -/
def asOptStr : Json → Option (Option String)
  | .null => some none
  | .str s => some (some s)
  | _ => none

/-- Validate a JSON integer. -/
def asInt : Json → Option Int
  | .num n => some n
  | _ => none

/-- Validate the `Literal["utf-8", "base64"]` tag. -/
def asEncoding : Json → Option BodyEncoding
  | .str s => if s = "utf-8" then some .utf8 else if s = "base64" then some .base64 else none
  | _ => none

/-- Validate a `dict[str, list[str]]`. -/
def asQuery : Json → Option (List (String × List String))
  | .obj fs => mapMOpt fs fun p =>
      match p.2 with
      | .arr xs => (mapMOpt xs asStr).map fun vs => (p.1, vs)
      | _ => none
  | _ => none

/-- Validate a `dict[str, str]`. -/
def asHeaders : Json → Option (List (String × String))
  | .obj fs => mapMOpt fs fun p => (asStr p.2).map fun v => (p.1, v)
  | _ => none

/-- A nullable field with a default: absent or `null` both give the
default `none`; present non-null must be a string. -/
def optFieldStr (j : Json) (k : String) : Option (Option String) :=
  match jGet j k with
  | none => some none
  | some v => asOptStr v

/-- The `body_encoding` field with its default. -/
def optFieldEncoding (j : Json) (k : String) : Option BodyEncoding :=
  match jGet j k with
  | none => some .utf8
  | some v => asEncoding v

/-- Pydantic validation of a `RecordedRequest` document. -/
def validateRecordedRequest (j : Json) : Option RecordedRequest :=
  match jGet j "method" >>= asStr, jGet j "path" >>= asStr,
      jGet j "query" >>= asQuery, jGet j "headers" >>= asHeaders,
      optFieldStr j "body", optFieldEncoding j "body_encoding",
      optFieldStr j "content_type" with
  | some m, some p, some q, some h, some b, some e, some ct =>
    some { method := m, path := p, query := q, headers := h,
           body := b, body_encoding := e, content_type := ct }
  | _, _, _, _, _, _, _ => none

/-- Pydantic validation of a `RecordedResponse` document. -/
def validateRecordedResponse (j : Json) : Option RecordedResponse :=
  match jGet j "status_code" >>= asInt, jGet j "headers" >>= asHeaders,
      optFieldStr j "body", optFieldEncoding j "body_encoding" with
  | some s, some h, some b, some e =>
    some { status_code := s, headers := h, body := b, body_encoding := e }
  | _, _, _, _ => none

/-- Pydantic validation of a `CassetteMeta` document. -/
def validateCassetteMeta (j : Json) : Option CassetteMeta :=
  match jGet j "recorded_at" >>= asStr, jGet j "target" >>= asStr,
      jGet j "domain" >>= asStr, jGet j "vcr_proxy_version" >>= asStr with
  | some r, some t, some d, some v =>
    some { recorded_at := r, target := t, domain := d, vcr_proxy_version := v }
  | _, _, _, _ => none

/-- Source `Cassette.model_validate_json`: `none` is pydantic's
`ValidationError` (which `lookup` does not catch). -/
def validateCassette (j : Json) : Option Cassette :=
  match jGet j "meta" >>= validateCassetteMeta,
      jGet j "request" >>= validateRecordedRequest,
      jGet j "response" >>= validateRecordedResponse with
  | some m, some req, some resp => some { meta := m, request := req, response := resp }
  | _, _, _ => none

/-- Source `CassetteStorage.save`: create the domain directory if
absent, write the serialized cassette under the computed filename
(silent overwrite), return the path. -/
def save (fs : FS) (cassette : Cassette) (matching_key : MatchingKey) : String × FS :=
  let domain := cassette.meta.domain
  let dirs := if fs.dirs.contains domain then fs.dirs else fs.dirs ++ [domain]
  let filename := cassette_filename matching_key
  let files := fileSet fs.files (domain, filename) (dumpCassette cassette)
  (domain ++ "/" ++ filename, { dirs := dirs, files := files })

/-- Source `CassetteStorage.lookup`: `ok none` when the domain directory
or the computed file is absent; otherwise parse — an unparsable file
raises (the `error` case), it is not treated as a miss. -/
def lookup (fs : FS) (domain : String) (matching_key : MatchingKey) :
    Except String (Option Cassette) :=
  if ¬ fs.dirs.contains domain then .ok none
  else
    let filename := cassette_filename matching_key
    match fileGet fs.files (domain, filename) with
    | none => .ok none
    | some content =>
      match validateCassette content with
      | some c => .ok (some c)
      | none => .error "ValidationError"

/-- Source `CassetteStorage.delete`: unlink when the file exists,
reporting whether anything was removed; never an error. -/
def delete (fs : FS) (domain : String) (cassette_id : String) : Bool × FS :=
  let key := (domain, cassette_id ++ ".json")
  match fileGet fs.files key with
  | some _ => (true, { fs with files := fs.files.filter fun e => decide (¬ e.1 = key) })
  | none => (false, fs)

end storage

namespace proxy

/-- Source `ProxyHandler._handle_replay`: look the cassette up; a hit
bumps `stats_hits` and returns the recorded status, headers and decoded
body; a miss bumps `stats_misses` and returns the 404 error JSON.  An
exception from `lookup` or `_decode_body` propagates. -/
def handle_replay (fs : storage.FS) (st : HandlerStats) (domain : String)
    (matching_key : MatchingKey) :
    Except String (HandlerStats × Int × List (String × String) × Bytes) :=
  match storage.lookup fs domain matching_key with
  | .error e => .error e
  | .ok none =>
    .ok ({ st with stats_misses := st.stats_misses + 1 }, 404,
      [("content-type", "application/json")],
      utf8Encode "\x7b\"error\": \"no matching cassette found\"\x7d")
  | .ok (some cassette) =>
    match decode_body cassette.response with
    | none => .error "binascii.Error"
    | some body_bytes =>
      .ok ({ st with stats_hits := st.stats_hits + 1 }, cassette.response.status_code,
        cassette.response.headers, body_bytes)

end proxy

/-! ## Route configs (`vcr_proxy/route_config.py`)

A route config file is the `Option RouteMatchingOverride` state for its
`(domain, method, path)`; `auto_generate` is the state transformation
one recording applies (the YAML file round-trip is the value itself). -/

namespace route_config

/-- The form-urlencoded tail of `_extract_body_fields` (the second
content-type check and the final `return []`, reached whenever the JSON
branch does not return). -/
def extract_form_fields (b ct : String) : List String :=
  if pyContains ct "application/x-www-form-urlencoded" then
    sortStrings ((parse_qs b).map Prod.fst)
  else []

/-- Source `_extract_body_fields`: top-level field names of a JSON
object body (sorted); a body that does not parse as a JSON object falls
through to the form-urlencoded check; else `[]`. -/
def extract_body_fields (body : Option String) (content_type : Option String) : List String :=
  match body, content_type with
  | some b, some ct =>
    if pyContains ct "application/json" then
      match json_loads b with
      | some (.obj fs) => sortStrings (fs.map Prod.fst)
      | _ => extract_form_fields b ct
    else extract_form_fields b ct
  | _, _ => []

/-- Source `RouteConfigManager.auto_generate`, as the transformation of
the route's config state: when a config exists its `matched` lists are
unioned with the newly observed names (`sorted(set(old) | set(new))`)
and `ignore` is untouched; otherwise a fresh override is written with
`matched` populated and `ignore` empty. -/
def auto_generate (existing : Option RouteMatchingOverride) (request : RecordedRequest) :
    RouteMatchingOverride :=
  let body_fields := extract_body_fields request.body request.content_type
  let query_params := sortStrings (request.query.map Prod.fst)
  let headers := sortStrings (request.headers.map fun kv => pyLower kv.1)
  match existing with
  | some ex =>
    { ex with matched :=
      { body_fields := pySortedSet (ex.matched.body_fields ++ body_fields)
        query_params := pySortedSet (ex.matched.query_params ++ query_params)
        headers := pySortedSet (ex.matched.headers ++ headers) } }
  | none =>
    { route := { method := pyUpper request.method, path := some request.path }
      matched := { query_params := query_params, headers := headers, body_fields := body_fields }
      ignore := {} }

/-- The config state after a sequence of recordings. -/
def auto_generate_run (initial : Option RouteMatchingOverride)
    (requests : List RecordedRequest) : Option RouteMatchingOverride :=
  requests.foldl (fun st r => some (auto_generate st r)) initial

end route_config

/-! ## Concrete data used by witnesses -/

/-- A concrete matching key. -/
def keyW : MatchingKey := { method := "GET", path := "/x" }

/-- A concrete recorded response with no body. -/
def respNull : RecordedResponse := { status_code := 200, headers := [] }

/-- A concrete recorded response with a base64 body. -/
def respB64 : RecordedResponse :=
  { status_code := 200, headers := [("content-type", "application/octet-stream")],
    body := some "AQID", body_encoding := .base64 }

/-- A concrete recorded response with a UTF-8 body. -/
def respTxt : RecordedResponse := { status_code := 200, headers := [], body := some "hi" }

/-- A concrete cassette holding the base64 response. -/
def cassetteW : Cassette :=
  { meta := { recorded_at := "2025-01-01T00:00:00Z", target := "https://api.example.com",
              domain := "d", vcr_proxy_version := "1.0.0" },
    request := { method := "GET", path := "/x", query := [], headers := [] },
    response := respB64 }

/-- A one-cassette store holding `cassetteW` under its computed
filename. -/
def fsW : storage.FS :=
  ⟨["d"], [(("d", storage.cassette_filename keyW), storage.dumpCassette cassetteW)]⟩

/-- The upstream response of the C1 recording scenario (the repo's own
test `test_record_redacts_sensitive_headers_in_cassette`). -/
def upstreamW : proxy.UpstreamResponse :=
  { status_code := 200,
    headers := [("content-type", "application/json"), ("set-cookie", "session=abc123")],
    content := utf8Encode "\x7b\"ok\": true\x7d" }

/-- Request body `{"login": "admin", "password": "secret", "action": "search"}`
from the repo's `test_body_fields_ignore` scenario. -/
def loginBody1 : Bytes :=
  utf8Encode "\x7b\"login\": \"admin\", \"password\": \"secret\", \"action\": \"search\"\x7d"

/-- The same body with different credentials. -/
def loginBody2 : Bytes :=
  utf8Encode "\x7b\"login\": \"other\", \"password\": \"different\", \"action\": \"search\"\x7d"

/-- The inbound headers of the login scenario. -/
def loginHeaders : List (String × String) := [("content-type", "application/json")]

/-- The pre-created route override of the login scenario: ignore the
`login` and `password` body fields. -/
def loginIgnore : RouteIgnoreConfig := { body_fields := ["login", "password"] }

/-- The body-field set one recording contributes to `matched`
(the `F_i` of the merge-monotonicity property). -/
def observed_body_fields (r : RecordedRequest) : List String :=
  route_config.extract_body_fields r.body r.content_type

/-- The query-parameter set one recording contributes to `matched`. -/
def observed_query_params (r : RecordedRequest) : List String :=
  sortStrings (r.query.map Prod.fst)

/-- The header-name set one recording contributes to `matched`. -/
def observed_headers (r : RecordedRequest) : List String :=
  sortStrings (r.headers.map fun kv => pyLower kv.1)

/-- The ignore configuration present before the first call (`{}` when no
config file exists yet). -/
def ignoreOf : Option RouteMatchingOverride → RouteIgnoreConfig
  | some o => o.ignore
  | none => {}

/-- A pre-created route override with empty `matched` and the login
ignore lists. -/
def cfgW : RouteMatchingOverride :=
  { route := { method := "POST", path := some "/login" }, ignore := loginIgnore }

/-- First recording of the C6 scenario. -/
def reqW1 : RecordedRequest :=
  { method := "POST", path := "/login", query := [("z", ["1"])],
    headers := [("X-Token", "t")],
    body := some "\x7b\"b\":1,\"a\":2\x7d", content_type := some "application/json" }

/-- Second recording of the C6 scenario. -/
def reqW2 : RecordedRequest :=
  { method := "POST", path := "/login", query := [("a", ["2"])],
    headers := [("accept", "x")],
    body := some "\x7b\"c\":1,\"a\":2\x7d", content_type := some "application/json" }

/-! ## Spec-side definitions for the filename refinement

These two definitions transcribe the specification's words (spec 4.2/4.3)
rather than the source, to be compared with the source-side
`storage.path_to_slug`/`storage.cassette_filename`. -/

/-- Spec words: "path-slug is obtained by stripping leading/trailing
`/`, replacing `/` with `_`, replacing any character outside
`[A-Za-z0-9_-]` with `_` (empty string becomes `root`)". -/
def spec_path_slug (path : String) : String :=
  let stripped := pyStrip '/' path
  let slashed := pyReplaceChar '/' '_' stripped
  let cleaned := String.mk <| slashed.data.map fun c =>
    if (65 ≤ c.val ∧ c.val ≤ 90) ∨ (97 ≤ c.val ∧ c.val ≤ 122) ∨
        (48 ≤ c.val ∧ c.val ≤ 57) ∨ c = '_' ∨ c = '-' then c
    else '_'
  if cleaned = "" then "root" else cleaned

/-- Spec words: "the canonical JSON serialization of the key with field
order method, path, query, body, headers and nulls preserved". -/
def spec_canonical_key_json (k : MatchingKey) : String :=
  "\x7b\"method\":" ++ pydQuote k.method ++ ",\"path\":" ++ pydQuote k.path ++
    ",\"query\":" ++ pydOptStr k.query ++ ",\"body\":" ++ pydOptStr k.body ++
    ",\"headers\":" ++ pydOptStr k.headers ++ "\x7d"

/-- Spec words: "hash is the first 8 hexadecimal characters of SHA-256
over the canonical JSON serialization of the key". -/
def spec_hash (k : MatchingKey) : String :=
  String.mk ((sha256hex (utf8Encode (spec_canonical_key_json k))).data.take 8)

/-- Spec words: "the cassette filename equals
`<METHOD>_<path-slug>_<hash>.json`". -/
def spec_cassette_filename (k : MatchingKey) : String :=
  k.method ++ "_" ++ spec_path_slug k.path ++ "_" ++ spec_hash k ++ ".json"

/-- Two query dicts are equal up to ordering — of the values inside one
key and of the keys themselves — when sorting each value list makes them
permutations of each other. -/
def queryEquiv (q1 q2 : List (String × List String)) : Prop :=
  (q1.map fun kv => (kv.1, List.insertionSort pyLe kv.2)).Perm
    (q2.map fun kv => (kv.1, List.insertionSort pyLe kv.2))

instance (q1 q2 : List (String × List String)) : Decidable (queryEquiv q1 q2) :=
  inferInstanceAs (Decidable (List.Perm _ _))

/-- The key list of an object document (`[]` for any other document). -/
def objKeys : Json → List String
  | .obj fs => fs.map Prod.fst
  | _ => []

/-- C10 witness body: `{"b":{"d":1,"c":2},"a":3}`. -/
def bodyJ1 : String := "\x7b\"b\":\x7b\"d\":1,\"c\":2\x7d,\"a\":3\x7d"

/-- C10 witness body with keys reordered at both depths. -/
def bodyJ2 : String := "\x7b\"a\":3,\"b\":\x7b\"c\":2,\"d\":1\x7d\x7d"

/-- The parse of `bodyJ1`. -/
def valJ1 : Json :=
  .obj [("b", .obj [("d", .num 1), ("c", .num 2)]), ("a", .num 3)]

/-- The parse of `bodyJ2`. -/
def valJ2 : Json :=
  .obj [("a", .num 3), ("b", .obj [("c", .num 2), ("d", .num 1)])]

/-- The base request of the C10 witness. -/
def reqJ : RecordedRequest := { method := "POST", path := "/p", query := [], headers := [] }

/-- The C10 witness request carrying `bodyJ1`. -/
def reqJ1 : RecordedRequest :=
  { method := "POST", path := "/p", query := [], headers := [],
    body := some bodyJ1, content_type := some "application/json" }

/-- The C10 witness request carrying `bodyJ2`. -/
def reqJ2 : RecordedRequest :=
  { method := "POST", path := "/p", query := [], headers := [],
    body := some bodyJ2, content_type := some "application/json" }

/-! ## Helper lemmas -/

/-- Looking a key up after filtering that key's entries out finds
nothing. -/
theorem fileGet_filter_ne (l : List ((String × String) × Json)) (k : String × String) :
    storage.fileGet (l.filter fun e => !decide (e.1 = k)) k = none := by
  induction l with
  | nil => rfl
  | cons e rest ih =>
    by_cases h : e.1 = k
    · simpa [List.filter, h] using ih
    · simpa [storage.fileGet, List.filter, List.find?, h] using ih

/-- `pyLe` is transitive. -/
instance : IsTrans String pyLe := ⟨fun _ _ _ h1 h2 => le_trans h1 h2⟩

/-- `pyLe` is antisymmetric. -/
instance : IsAntisymm String pyLe :=
  ⟨fun a b h1 h2 => by
    have hd : a.data = b.data := le_antisymm h1 h2
    cases a; cases b; exact congrArg String.mk hd⟩

/-- `pyLe` is total. -/
instance : IsTotal String pyLe := ⟨fun a b => le_total a.data b.data⟩

/-- Sorting two lists that are permutations of each other gives the
same result. -/
theorem sortStrings_eq_of_perm {l1 l2 : List String} (h : l1.Perm l2) :
    sortStrings l1 = sortStrings l2 := by
  refine List.eq_of_perm_of_sorted ?_ (List.sorted_insertionSort pyLe l1)
    (List.sorted_insertionSort pyLe l2)
  exact ((List.perm_insertionSort pyLe l1).trans h).trans
    (List.perm_insertionSort pyLe l2).symm

/-- `sorted(set(·))` depends only on the member set. -/
theorem pySortedSet_eq_of_toFinset {l1 l2 : List String} (h : l1.toFinset = l2.toFinset) :
    pySortedSet l1 = pySortedSet l2 := by
  refine sortStrings_eq_of_perm ?_
  refine List.perm_of_nodup_nodup_toFinset_eq (List.nodup_dedup l1) (List.nodup_dedup l2) ?_
  ext a
  simp only [List.mem_toFinset, List.mem_dedup]
  have h1 : (a ∈ l1.toFinset) ↔ a ∈ l1 := List.mem_toFinset
  have h2 : (a ∈ l2.toFinset) ↔ a ∈ l2 := List.mem_toFinset
  rw [← h1, ← h2, h]

/-- The member set of `sorted(set(l))` is that of `l`. -/
theorem toFinset_pySortedSet (l : List String) : (pySortedSet l).toFinset = l.toFinset := by
  ext a
  simp [pySortedSet, sortStrings,
    (List.perm_insertionSort pyLe l.dedup).mem_iff, List.mem_dedup]

/-- Collapsing an inner `sorted(set(·))` on the left of a union. -/
theorem pySortedSet_append_left (a b : List String) :
    pySortedSet (pySortedSet a ++ b) = pySortedSet (a ++ b) := by
  refine pySortedSet_eq_of_toFinset ?_
  simp [List.toFinset_append, toFinset_pySortedSet]

/-- A sorted duplicate-free list is its own `sorted(set(·))`. -/
theorem pySortedSet_of_sorted_nodup {l : List String} (hn : l.Nodup)
    (hs : List.Sorted pyLe l) : pySortedSet l = l := by
  rw [pySortedSet, sortStrings, hn.dedup, hs.insertionSort_eq]

/-- `sortStrings` output is sorted. -/
theorem sorted_sortStrings (l : List String) : List.Sorted pyLe (sortStrings l) :=
  List.sorted_insertionSort pyLe l

/-- The form-extracted field list is sorted. -/
theorem sorted_extract_form_fields (b ct : String) :
    List.Sorted pyLe (route_config.extract_form_fields b ct) := by
  unfold route_config.extract_form_fields
  split
  · exact sorted_sortStrings _
  · simp

/-- The extracted body-field list is sorted in every branch. -/
theorem sorted_observed_body_fields (r : RecordedRequest) :
    List.Sorted pyLe (observed_body_fields r) := by
  unfold observed_body_fields route_config.extract_body_fields
  cases r.body with
  | none => cases r.content_type <;> simp
  | some b =>
    cases r.content_type with
    | none => simp
    | some ct =>
      simp only []
      split
      · split
        · exact sorted_sortStrings _
        · exact sorted_extract_form_fields b ct
      · exact sorted_extract_form_fields b ct

/-! ## The claims -/

/-- C8: for every domain `d` and cassette id whose file exists,
`delete(d, id)` returns `true` and a second call returns `false`
(`delete` is total in this model — neither call can raise), and
`delete` of a non-existent id returns `false`. -/
theorem C8_delete_idempotent (fs : storage.FS) (domain id : String) :
    ((storage.fileGet fs.files (domain, id ++ ".json")).isSome = true →
      (storage.delete fs domain id).1 = true ∧
        (storage.delete (storage.delete fs domain id).2 domain id).1 = false) ∧
    (storage.fileGet fs.files (domain, id ++ ".json") = none →
      (storage.delete fs domain id).1 = false) := by
  constructor
  · intro hex
    match hg : storage.fileGet fs.files (domain, id ++ ".json") with
    | none => rw [hg] at hex; simp at hex
    | some content =>
      refine ⟨by simp [storage.delete, hg], ?_⟩
      simp [storage.delete, hg, fileGet_filter_ne]
  · intro hnone
    simp [storage.delete, hnone]

/-- C8 witness: a one-file store, deleted twice, and a missing id. -/
theorem C8_delete_idempotent_witness :
    ((storage.fileGet [(("d", "a.json"), Json.null)] ("d", "a" ++ ".json")).isSome = true ∧
      (storage.delete ⟨["d"], [(("d", "a.json"), Json.null)]⟩ "d" "a").1 = true ∧
        (storage.delete (storage.delete ⟨["d"], [(("d", "a.json"), Json.null)]⟩ "d" "a").2
          "d" "a").1 = false) ∧
    (storage.fileGet [(("d", "a.json"), Json.null)] ("d", "b" ++ ".json") = none ∧
      (storage.delete ⟨["d"], [(("d", "a.json"), Json.null)]⟩ "d" "b").1 = false) := by
  have h1 := C8_delete_idempotent ⟨["d"], [(("d", "a.json"), Json.null)]⟩ "d" "a"
  have h2 := C8_delete_idempotent ⟨["d"], [(("d", "a.json"), Json.null)]⟩ "d" "b"
  exact ⟨⟨rfl, h1.1 rfl⟩, rfl, h2.2 rfl⟩

/-- C3 counterexample: a store whose computed cassette file exists but
holds an unparsable document.  `lookup` raises (pydantic
`ValidationError` propagates, the `error` case) instead of returning the
miss `ok none` that the same key gets when the file is absent — so a
malformed file is NOT treated as if the cassette did not exist. -/
theorem C3_malformed_counterexample :
    storage.lookup
      ⟨["api.example.com"],
       [(("api.example.com",
          storage.cassette_filename { method := "GET", path := "/users" }),
         Json.str "not a cassette")]⟩
      "api.example.com" { method := "GET", path := "/users" } =
      .error "ValidationError" ∧
    storage.lookup ⟨["api.example.com"], []⟩
      "api.example.com" { method := "GET", path := "/users" } = .ok none := by
  constructor
  · simp [storage.lookup, storage.fileGet, storage.validateCassette, storage.jGet,
      List.find?]
  · rfl

/-- C3 amended: when the computed cassette file exists but its contents
fail to validate, `lookup` propagates the parse error to the caller (it
does not return a miss). -/
theorem C3_malformed_lookup_raises (fs : storage.FS) (domain : String)
    (key : MatchingKey) (content : Json)
    (hdir : fs.dirs.contains domain = true)
    (hfile : storage.fileGet fs.files (domain, storage.cassette_filename key) = some content)
    (hbad : storage.validateCassette content = none) :
    storage.lookup fs domain key = .error "ValidationError" := by
  have hdir2 : domain ∈ fs.dirs := by simpa using hdir
  simp [storage.lookup, hdir2, hfile, hbad]

/-- C3 witness for the amended claim, at the counterexample's store. -/
theorem C3_malformed_lookup_raises_witness :
    storage.lookup
      ⟨["api.example.com"],
       [(("api.example.com",
          storage.cassette_filename { method := "GET", path := "/users" }),
         Json.str "not a cassette")]⟩
      "api.example.com" { method := "GET", path := "/users" } =
      .error "ValidationError" :=
  C3_malformed_lookup_raises _ _ _ (Json.str "not a cassette") rfl
    (by simp [storage.fileGet, List.find?]) rfl

/-- Writing a file then reading the same path gives the written
content. -/
theorem fileGet_fileSet_self (l : List ((String × String) × Json)) (k : String × String)
    (v : Json) : storage.fileGet (storage.fileSet l k v) k = some v := by
  induction l with
  | nil => simp [storage.fileSet, storage.fileGet, List.find?]
  | cons e rest ih =>
    by_cases h : e.1 = k
    · simp [storage.fileSet, storage.fileGet, List.find?, h]
    · have hb : (e.1 == k) = false := by simpa using h
      simpa [storage.fileSet, storage.fileGet, List.find?, hb] using ih

/-- Validating each image of a mapped list recovers the original list
when validation inverts the map on its members. -/
theorem mapMOpt_map_inverse {α β : Type} (l : List α) (f : α → β) (g : β → Option α)
    (h : ∀ x ∈ l, g (f x) = some x) : storage.mapMOpt (l.map f) g = some l := by
  induction l with
  | nil => rfl
  | cons x xs ih =>
    have hx := h x (by simp)
    have hrest : storage.mapMOpt (xs.map f) g = some xs :=
      ih fun y hy => h y (by simp [hy])
    simp [storage.mapMOpt, hx, hrest]

/-- A nullable string survives the dump/validate pair. -/
theorem asOptStr_optStrJ (b : Option String) :
    storage.asOptStr (storage.optStrJ b) = some b := by
  cases b <;> rfl

/-- The encoding tag survives the dump/validate pair. -/
theorem asEncoding_toStr (e : BodyEncoding) :
    storage.asEncoding (.str e.toStr) = some e := by
  cases e <;> rfl

/-- A dumped request document validates back to the request. -/
theorem validate_dump_request (r : RecordedRequest) :
    storage.validateRecordedRequest (storage.dumpRecordedRequest r) = some r := by
  have hq : storage.asQuery (.obj (r.query.map fun kv => (kv.1, .arr (kv.2.map Json.str)))) =
      some r.query := by
    simp only [storage.asQuery]
    refine mapMOpt_map_inverse _ _ _ fun kv _ => ?_
    simp [mapMOpt_map_inverse kv.2 Json.str storage.asStr fun s _ => rfl]
  have hh : storage.asHeaders (.obj (r.headers.map fun kv => (kv.1, .str kv.2))) =
      some r.headers := by
    simp only [storage.asHeaders]
    exact mapMOpt_map_inverse _ _ _ fun kv _ => rfl
  simp [storage.validateRecordedRequest, storage.dumpRecordedRequest, storage.jGet,
    List.find?, storage.optFieldStr, storage.optFieldEncoding, hq, hh,
    asOptStr_optStrJ, asEncoding_toStr, storage.asStr]

/-- A dumped response document validates back to the response. -/
theorem validate_dump_response (r : RecordedResponse) :
    storage.validateRecordedResponse (storage.dumpRecordedResponse r) = some r := by
  have hh : storage.asHeaders (.obj (r.headers.map fun kv => (kv.1, .str kv.2))) =
      some r.headers := by
    simp only [storage.asHeaders]
    exact mapMOpt_map_inverse _ _ _ fun kv _ => rfl
  simp [storage.validateRecordedResponse, storage.dumpRecordedResponse, storage.jGet,
    List.find?, storage.optFieldStr, storage.optFieldEncoding, hh,
    asOptStr_optStrJ, asEncoding_toStr, storage.asInt]

/-- A dumped cassette document validates back to the cassette. -/
theorem validate_dump_cassette (c : Cassette) :
    storage.validateCassette (storage.dumpCassette c) = some c := by
  simp [storage.validateCassette, storage.dumpCassette, storage.jGet, List.find?,
    storage.validateCassetteMeta, storage.asStr,
    validate_dump_request, validate_dump_response]

/-- C5: `save` followed by `lookup` with the same `(domain, key)`
returns a cassette structurally equal to the saved one, through the
on-disk serialization (`dumpCassette`/`validateCassette`). -/
theorem C5_save_lookup_round_trip (fs : storage.FS) (c : Cassette) (k : MatchingKey) :
    storage.lookup (storage.save fs c k).2 c.meta.domain k = .ok (some c) := by
  have hmem : c.meta.domain ∈ ((storage.save fs c k).2).dirs := by
    simp only [storage.save]
    by_cases h : c.meta.domain ∈ fs.dirs
    · simp [h]
    · simp [h]
  have hfile : storage.fileGet ((storage.save fs c k).2).files
      (c.meta.domain, storage.cassette_filename k) = some (storage.dumpCassette c) := by
    simp only [storage.save]
    exact fileGet_fileSet_self _ _ _
  simp [storage.lookup, hmem, hfile, validate_dump_cassette]

/-- C7: in REPLAY mode, a lookup hit bumps `stats_hits` and returns the
recorded status, recorded headers and decoded body; a miss bumps
`stats_misses` and returns 404 with the error JSON; and `_decode_body`
maps a null body to empty bytes, a base64 body through base64 decoding,
and any other body to its UTF-8 encoding. -/
theorem C7_replay_behavior (fs : storage.FS) (st : proxy.HandlerStats) (domain : String)
    (key : MatchingKey) :
    (∀ (c : Cassette) (b : Bytes),
      storage.lookup fs domain key = .ok (some c) →
      proxy.decode_body c.response = some b →
      proxy.handle_replay fs st domain key =
        .ok ({ st with stats_hits := st.stats_hits + 1 },
          c.response.status_code, c.response.headers, b)) ∧
    (storage.lookup fs domain key = .ok none →
      proxy.handle_replay fs st domain key =
        .ok ({ st with stats_misses := st.stats_misses + 1 }, 404,
          [("content-type", "application/json")],
          utf8Encode "\x7b\"error\": \"no matching cassette found\"\x7d")) ∧
    (∀ r : RecordedResponse,
      (r.body = none → proxy.decode_body r = some []) ∧
      (∀ s, r.body = some s → r.body_encoding = .base64 →
        proxy.decode_body r = b64decode s) ∧
      (∀ s, r.body = some s → r.body_encoding ≠ .base64 →
        proxy.decode_body r = some (utf8Encode s))) := by
  refine ⟨fun c b hl hd => ?_, fun hl => ?_, fun r => ⟨fun hn => ?_, fun s hs he => ?_,
    fun s hs he => ?_⟩⟩
  · simp [proxy.handle_replay, hl, hd]
  · simp [proxy.handle_replay, hl]
  · simp [proxy.decode_body, hn]
  · simp [proxy.decode_body, hs, he]
  · simp [proxy.decode_body, hs, he]

/-- C7 witness: a base64-body cassette is replayed as its decoded
bytes with `stats_hits` bumped; an empty store replays as the 404
miss with `stats_misses` bumped; the three decode cases at concrete
responses. -/
theorem C7_replay_behavior_witness :
    proxy.handle_replay fsW {} "d" keyW =
      .ok ({ stats_hits := 1 }, 200, [("content-type", "application/octet-stream")],
        [1, 2, 3]) ∧
    proxy.handle_replay ⟨["d"], []⟩ {} "d" keyW =
      .ok ({ stats_misses := 1 }, 404, [("content-type", "application/json")],
        utf8Encode "\x7b\"error\": \"no matching cassette found\"\x7d") ∧
    proxy.decode_body respNull = some [] ∧
    proxy.decode_body respB64 = some [1, 2, 3] ∧
    proxy.decode_body respTxt = some [104, 105] := by
  have h := C7_replay_behavior fsW {} "d" keyW
  have hmiss := C7_replay_behavior ⟨["d"], []⟩ {} "d" keyW
  have hdec := (C7_replay_behavior ⟨[], []⟩ {} "" keyW).2.2
  refine ⟨?_, hmiss.2.1 rfl, (hdec respNull).1 rfl,
    (hdec respB64).2.1 "AQID" rfl rfl, (hdec respTxt).2.2 "hi" rfl (by decide)⟩
  have hl : storage.lookup fsW "d" keyW = .ok (some cassetteW) := by
    simp [storage.lookup, fsW, storage.fileGet, List.find?, validate_dump_cassette]
  have := h.1 cassetteW [1, 2, 3] hl rfl
  simpa [cassetteW, respB64] using this

/-- C1 (code evaluated at the failing input): the dispatcher's builders
in `proxy.py` perform no redaction at all — a recorded request keeps the
`Authorization` value in plaintext and a recorded response keeps the
`set-cookie` value — and the forward-proxy addon calls the redacting
builder of `recording.py` with an empty sensitive set, which also keeps
the plaintext.  (The live upstream response is indeed returned
unmodified; what fails is the redaction half of the claim.) -/
theorem C1_cassette_headers_not_redacted :
    (proxy.build_recorded_request "GET" "/v1/users" ""
        [("Authorization", "Bearer secret-token")] none).headers =
      [("authorization", "Bearer secret-token")] ∧
    (proxy.build_recorded_response upstreamW).headers =
      [("content-type", "application/json"), ("set-cookie", "session=abc123")] ∧
    (recording.build_recorded_request "GET" "/v1/users" ""
        [("Authorization", "Bearer secret-token")] none []).headers =
      [("authorization", "Bearer secret-token")] ∧
    "Bearer secret-token" ≠ recording.REDACTED := by
  exact ⟨rfl, rfl, rfl, by decide⟩

/-- C2 (code evaluated at the failing input): `ProxyHandler.handle`
computes the matching key without consulting any route config, so the
two login bodies that differ only in the ignored `login`/`password`
fields get different keys (the second request misses the first one's
cassette); had the pre-created override been passed to
`compute_matching_key` as the spec (and the repo's
`test_body_fields_ignore` tests) require, the keys would be equal. -/
theorem C2_route_ignore_not_consulted :
    proxy.handle_matching_key ALWAYS_IGNORED_HEADERS_DEFAULT "POST" "/login" ""
        loginHeaders (some loginBody1) ≠
      proxy.handle_matching_key ALWAYS_IGNORED_HEADERS_DEFAULT "POST" "/login" ""
        loginHeaders (some loginBody2) ∧
    matching.compute_matching_key
        (proxy.build_recorded_request "POST" "/login" "" loginHeaders (some loginBody1))
        (some ALWAYS_IGNORED_HEADERS_DEFAULT) (some loginIgnore) =
      matching.compute_matching_key
        (proxy.build_recorded_request "POST" "/login" "" loginHeaders (some loginBody2))
        (some ALWAYS_IGNORED_HEADERS_DEFAULT) (some loginIgnore) := by
  exact ⟨by decide, by decide⟩

/-- Folding `auto_generate` over a non-empty request list from an
existing config merges `matched` into the sorted set union and keeps
`route` and `ignore` untouched. -/
theorem auto_generate_run_merge (reqs : List RecordedRequest) (o : RouteMatchingOverride)
    (hne : reqs ≠ []) :
    route_config.auto_generate_run (some o) reqs = some
      { route := o.route
        matched :=
          { query_params :=
              pySortedSet (o.matched.query_params ++ reqs.flatMap observed_query_params)
            headers := pySortedSet (o.matched.headers ++ reqs.flatMap observed_headers)
            body_fields :=
              pySortedSet (o.matched.body_fields ++ reqs.flatMap observed_body_fields) }
        ignore := o.ignore } := by
  induction reqs generalizing o with
  | nil => exact absurd rfl hne
  | cons r rest ih =>
    have hstep : route_config.auto_generate_run (some o) (r :: rest) =
        route_config.auto_generate_run (some (route_config.auto_generate (some o) r)) rest := rfl
    cases rest with
    | nil =>
      simp only [List.flatMap_cons, List.flatMap_nil, List.append_nil]
      rfl
    | cons r2 rest2 =>
      rw [hstep, ih _ (by simp)]
      refine congrArg some ?_
      have hq : pySortedSet ((route_config.auto_generate (some o) r).matched.query_params ++
          (r2 :: rest2).flatMap observed_query_params) =
          pySortedSet (o.matched.query_params ++ (r :: r2 :: rest2).flatMap observed_query_params) := by
        show pySortedSet (pySortedSet (o.matched.query_params ++ observed_query_params r) ++ _) = _
        rw [pySortedSet_append_left, List.append_assoc]
        rfl
      have hh : pySortedSet ((route_config.auto_generate (some o) r).matched.headers ++
          (r2 :: rest2).flatMap observed_headers) =
          pySortedSet (o.matched.headers ++ (r :: r2 :: rest2).flatMap observed_headers) := by
        show pySortedSet (pySortedSet (o.matched.headers ++ observed_headers r) ++ _) = _
        rw [pySortedSet_append_left, List.append_assoc]
        rfl
      have hb : pySortedSet ((route_config.auto_generate (some o) r).matched.body_fields ++
          (r2 :: rest2).flatMap observed_body_fields) =
          pySortedSet (o.matched.body_fields ++ (r :: r2 :: rest2).flatMap observed_body_fields) := by
        show pySortedSet (pySortedSet (o.matched.body_fields ++ observed_body_fields r) ++ _) = _
        rw [pySortedSet_append_left, List.append_assoc]
        rfl
      simp only [hq, hh, hb]
      rfl

/-- C6: after `N ≥ 1` calls to `auto_generate` for the same route with
observed field sets `F₁…Fₙ` (each request's field names are
duplicate-free, as every recorded request's are), `matched.body_fields`
equals `sorted(⋃ Fᵢ)` — likewise `matched.query_params` and
`matched.headers` — and `ignore` still equals whatever was present
before the first call. -/
theorem C6_auto_generate_merge_monotone (initial : Option RouteMatchingOverride)
    (reqs : List RecordedRequest) (hne : reqs ≠ [])
    (hm : match initial with
          | some o => o.matched = ({} : MatchedFields)
          | none => True)
    (hq : ∀ r ∈ reqs, (r.query.map Prod.fst).Nodup)
    (hh : ∀ r ∈ reqs, (r.headers.map fun kv => pyLower kv.1).Nodup)
    (hb : ∀ r ∈ reqs, (observed_body_fields r).Nodup) :
    (route_config.auto_generate_run initial reqs).map (fun f => f.matched.body_fields) =
      some (pySortedSet (reqs.flatMap observed_body_fields)) ∧
    (route_config.auto_generate_run initial reqs).map (fun f => f.matched.query_params) =
      some (pySortedSet (reqs.flatMap observed_query_params)) ∧
    (route_config.auto_generate_run initial reqs).map (fun f => f.matched.headers) =
      some (pySortedSet (reqs.flatMap observed_headers)) ∧
    (route_config.auto_generate_run initial reqs).map (fun f => f.ignore) =
      some (ignoreOf initial) := by
  cases initial with
  | some o =>
    rw [auto_generate_run_merge reqs o hne]
    simp only [hm, Option.map_some, ignoreOf]
    exact ⟨rfl, rfl, rfl, rfl⟩
  | none =>
    cases reqs with
    | nil => exact absurd rfl hne
    | cons r rest =>
      have hfirst : route_config.auto_generate_run none (r :: rest) =
          route_config.auto_generate_run (some (route_config.auto_generate none r)) rest := rfl
      have hfq : (route_config.auto_generate none r).matched.query_params =
          observed_query_params r := rfl
      have hfh : (route_config.auto_generate none r).matched.headers = observed_headers r := rfl
      have hfb : (route_config.auto_generate none r).matched.body_fields =
          observed_body_fields r := rfl
      cases rest with
      | nil =>
        have hq1 : pySortedSet (observed_query_params r) = observed_query_params r := by
          refine pySortedSet_of_sorted_nodup ?_ (sorted_sortStrings _)
          exact (List.perm_insertionSort pyLe _).nodup_iff.mpr (hq r (by simp))
        have hh1 : pySortedSet (observed_headers r) = observed_headers r := by
          refine pySortedSet_of_sorted_nodup ?_ (sorted_sortStrings _)
          exact (List.perm_insertionSort pyLe _).nodup_iff.mpr (hh r (by simp))
        have hb1 : pySortedSet (observed_body_fields r) = observed_body_fields r :=
          pySortedSet_of_sorted_nodup (hb r (by simp)) (sorted_observed_body_fields r)
        simp only [hfirst, route_config.auto_generate_run, List.foldl_nil, Option.map_some,
          List.flatMap_cons, List.flatMap_nil, List.append_nil, hq1, hh1, hb1,
          hfq, hfh, hfb, ignoreOf]
        exact ⟨rfl, rfl, rfl, rfl⟩
      | cons r2 rest2 =>
        rw [hfirst, auto_generate_run_merge _ _ (by simp)]
        simp only [Option.map_some, hfq, hfh, hfb, ignoreOf]
        refine ⟨?_, ?_, ?_, ?_⟩
        · rw [show (r :: r2 :: rest2).flatMap observed_body_fields =
            observed_body_fields r ++ (r2 :: rest2).flatMap observed_body_fields from rfl]
          rfl
        · rw [show (r :: r2 :: rest2).flatMap observed_query_params =
            observed_query_params r ++ (r2 :: rest2).flatMap observed_query_params from rfl]
          rfl
        · rw [show (r :: r2 :: rest2).flatMap observed_headers =
            observed_headers r ++ (r2 :: rest2).flatMap observed_headers from rfl]
          rfl
        · rfl

/-- C6 witness: two concrete recordings merged into a pre-created
override with a non-empty ignore list: the matched lists are the sorted
unions and the ignore list is exactly the pre-existing one. -/
theorem C6_auto_generate_merge_monotone_witness :
    (route_config.auto_generate_run (some cfgW) [reqW1, reqW2]).map
        (fun f => f.matched.body_fields) = some ["a", "b", "c"] ∧
    (route_config.auto_generate_run (some cfgW) [reqW1, reqW2]).map
        (fun f => f.matched.query_params) = some ["a", "z"] ∧
    (route_config.auto_generate_run (some cfgW) [reqW1, reqW2]).map
        (fun f => f.matched.headers) = some ["accept", "x-token"] ∧
    (route_config.auto_generate_run (some cfgW) [reqW1, reqW2]).map
        (fun f => f.ignore) = some loginIgnore := by
  have h := C6_auto_generate_merge_monotone (some cfgW) [reqW1, reqW2] (by decide)
    (by decide) (by decide) (by decide) (by decide)
  refine ⟨?_, ?_, ?_, ?_⟩
  · rw [h.1]; decide
  · rw [h.2.1]; decide
  · rw [h.2.2.1]; decide
  · rw [h.2.2.2]; decide

/-- C4: the source filename agrees with the spec's
`<METHOD>_<path-slug>_<hash>.json` construction for every key, and
`lookup` locates a cassette solely by that computed filename: its result
depends only on the domain directory's existence and the content stored
under the computed name, never on any other file. -/
theorem C4_filename_is_sole_locator :
    (∀ k : MatchingKey, storage.cassette_filename k = spec_cassette_filename k) ∧
    (∀ (d : String) (k : MatchingKey) (fs1 fs2 : storage.FS),
      fs1.dirs.contains d = fs2.dirs.contains d →
      storage.fileGet fs1.files (d, storage.cassette_filename k) =
        storage.fileGet fs2.files (d, storage.cassette_filename k) →
      storage.lookup fs1 d k = storage.lookup fs2 d k) := by
  constructor
  · intro k
    have hf : ∀ c : Char,
        (if (97 ≤ c.val ∧ c.val ≤ 122) ∨ (65 ≤ c.val ∧ c.val ≤ 90) ∨
            (48 ≤ c.val ∧ c.val ≤ 57) ∨ c = '_' ∨ c = '-' then c else '_') =
        (if (65 ≤ c.val ∧ c.val ≤ 90) ∨ (97 ≤ c.val ∧ c.val ≤ 122) ∨
            (48 ≤ c.val ∧ c.val ≤ 57) ∨ c = '_' ∨ c = '-' then c else '_') := by
      intro c
      by_cases h : (97 ≤ c.val ∧ c.val ≤ 122) ∨ (65 ≤ c.val ∧ c.val ≤ 90) ∨
          (48 ≤ c.val ∧ c.val ≤ 57) ∨ c = '_' ∨ c = '-'
      · rw [if_pos h, if_pos (by tauto)]
      · rw [if_neg h, if_neg (by tauto)]
    have hslug : storage.path_to_slug k.path = spec_path_slug k.path := by
      unfold storage.path_to_slug spec_path_slug
      rw [funext hf]
    unfold storage.cassette_filename spec_cassette_filename
    rw [hslug]
    rfl
  · intro d k fs1 fs2 h1 h2
    simp only [storage.lookup, h1, h2]

/-- C4 witness: two stores that differ in an unrelated domain and file
agree on the computed location, so `lookup` gives the same result. -/
theorem C4_filename_is_sole_locator_witness :
    storage.cassette_filename keyW = spec_cassette_filename keyW ∧
    storage.lookup ⟨["e"], [(("e", "other.json"), Json.null)]⟩ "d" keyW =
      storage.lookup ⟨["e"], []⟩ "d" keyW :=
  ⟨C4_filename_is_sole_locator.1 keyW,
   C4_filename_is_sole_locator.2 "d" keyW ⟨["e"], [(("e", "other.json"), Json.null)]⟩
     ⟨["e"], []⟩ rfl rfl⟩

/-- `String.data` is injective. -/
theorem string_data_injective : Function.Injective String.data := by
  intro a b h
  cases a; cases b; exact congrArg String.mk h

/-- `qpairLe` is transitive. -/
instance : IsTrans (String × List String) matching.qpairLe :=
  ⟨fun _ _ _ h1 h2 => le_trans h1 h2⟩

/-- `qpairLe` is total. -/
instance : IsTotal (String × List String) matching.qpairLe :=
  ⟨fun a b => le_total (toLex (a.1.data, a.2.map String.data)) (toLex (b.1.data, b.2.map String.data))⟩

/-- `qpairLe` is antisymmetric (it is the full-tuple comparison, so no
duplicate-key caveat is needed). -/
instance : IsAntisymm (String × List String) matching.qpairLe :=
  ⟨fun a b h1 h2 => by
    have h := toLex.injective (le_antisymm h1 h2)
    have h1' : a.1 = b.1 := string_data_injective (congrArg Prod.fst h)
    have h2' : a.2 = b.2 := by
      have := congrArg Prod.snd h
      exact List.map_injective_iff.mpr string_data_injective this
    exact Prod.ext h1' h2'⟩

/-- Filtering on the key alone commutes with sorting each value list. -/
theorem map_sortvals_filter (q : List (String × List String)) (ban : List String) :
    ((q.filter fun kv => decide (¬ ban.contains kv.1)).map
        fun kv => (kv.1, List.insertionSort pyLe kv.2)) =
      ((q.map fun kv => (kv.1, List.insertionSort pyLe kv.2)).filter
        fun kv => decide (¬ ban.contains kv.1)) := by
  induction q with
  | nil => rfl
  | cons kv rest ih =>
    by_cases h : kv.1 ∈ ban
    · simpa [List.filter, h] using ih
    · simpa [List.filter, h] using ih

/-- `_normalize_query` depends only on the sorted-value permutation
class of its input. -/
theorem normalize_query_congr {q1 q2 : List (String × List String)} (h : queryEquiv q1 q2) :
    matching.normalize_query q1 = matching.normalize_query q2 := by
  by_cases h1 : q1 = []
  · have h2 : q2 = [] := by
      subst h1
      have := h.length_eq
      simpa using List.eq_nil_of_length_eq_zero (by simpa using this.symm)
    rw [h1, h2]
  · have h2 : q2 ≠ [] := by
      intro hc
      subst hc
      have := h.length_eq
      exact h1 (List.eq_nil_of_length_eq_zero (by simpa using this))
    have hsort : List.insertionSort matching.qpairLe
        (q1.map fun kv => (kv.1, List.insertionSort pyLe kv.2)) =
        List.insertionSort matching.qpairLe
          (q2.map fun kv => (kv.1, List.insertionSort pyLe kv.2)) := by
      refine List.eq_of_perm_of_sorted ?_
        (List.sorted_insertionSort matching.qpairLe _)
        (List.sorted_insertionSort matching.qpairLe _)
      exact ((List.perm_insertionSort matching.qpairLe _).trans h).trans
        (List.perm_insertionSort matching.qpairLe _).symm
    simp only [matching.normalize_query, h1, h2, if_false, hsort]

/-- C9: two requests identical except for the ordering of their query
parameters — values of one key reordered, or keys in a different order —
get equal matching keys, for every ignore configuration. -/
theorem C9_query_order_invariant (r : RecordedRequest)
    (q1 q2 : List (String × List String))
    (ignore_headers : Option (List String)) (route_ignore : Option RouteIgnoreConfig)
    (h : queryEquiv q1 q2) :
    matching.compute_matching_key { r with query := q1 } ignore_headers route_ignore =
      matching.compute_matching_key { r with query := q2 } ignore_headers route_ignore := by
  unfold matching.compute_matching_key
  simp only [MatchingKey.mk.injEq, and_true, true_and]
  refine normalize_query_congr ?_
  unfold queryEquiv
  rw [map_sortvals_filter, map_sortvals_filter]
  exact h.filter _

/-- C9 witness: a repeated key with reordered values and swapped key
order gives the same key, whose query canonicalizes to
`a=x&b=1&b=2`. -/
theorem C9_query_order_invariant_witness :
    matching.compute_matching_key
        { method := "GET", path := "/p", headers := [],
          query := [("b", ["2", "1"]), ("a", ["x"])] } none none =
      matching.compute_matching_key
        { method := "GET", path := "/p", headers := [],
          query := [("a", ["x"]), ("b", ["1", "2"])] } none none ∧
    (matching.compute_matching_key
        { method := "GET", path := "/p", headers := [],
          query := [("b", ["2", "1"]), ("a", ["x"])] } none none).query =
      some "a=x&b=1&b=2" := by
  constructor
  · exact C9_query_order_invariant
      { method := "GET", path := "/p", headers := [], query := [] }
      [("b", ["2", "1"]), ("a", ["x"])] [("a", ["x"]), ("b", ["1", "2"])]
      none none (by decide)
  · decide

/-- Split a true Bool conjunction. -/
theorem and_true_split {a b : Bool} (h : (a && b) = true) : a = true ∧ b = true := by
  simp_all

/-- Join a true Bool conjunction. -/
theorem and_true_join {a b : Bool} (h1 : a = true) (h2 : b = true) : (a && b) = true := by
  simp_all

/-- `keyLe` is transitive. -/
instance {α : Type} : IsTrans (String × α) (@keyLe α) := ⟨fun _ _ _ h1 h2 => le_trans h1 h2⟩

/-- `keyLe` is total. -/
instance {α : Type} : IsTotal (String × α) (@keyLe α) := ⟨fun a b => le_total a.1.data b.1.data⟩

/-- The strict version of `keyLe`. -/
def keyLt {α : Type} (p q : String × α) : Prop := p.1.data < q.1.data

/-- `keyLt` is (vacuously) antisymmetric. -/
instance {α : Type} : IsAntisymm (String × α) (@keyLt α) :=
  ⟨fun _ _ h1 h2 => absurd h1 (lt_asymm h2)⟩

/-- Sorting by key is invariant under permutation when the keys are
pairwise distinct (the only situation Python dict items can be in). -/
theorem sortPairsByKey_eq_of_perm_nodup {α : Type} {l1 l2 : List (String × α)}
    (h : l1.Perm l2) (hn : (l1.map Prod.fst).Nodup) :
    sortPairsByKey l1 = sortPairsByKey l2 := by
  have hn2 : (l2.map Prod.fst).Nodup := ((h.map Prod.fst).nodup_iff).mp hn
  have strictOf : ∀ (l : List (String × α)), (l.map Prod.fst).Nodup →
      List.Sorted (@keyLe α) l → List.Sorted (@keyLt α) l := by
    intro l hnd hs
    have hne : List.Pairwise (fun p q : String × α => p.1 ≠ q.1) l :=
      (List.pairwise_map).mp hnd
    exact (hs.and hne).imp fun hx =>
      lt_of_le_of_ne hx.1 fun hc => hx.2 (string_data_injective hc)
  have hp1 : (sortPairsByKey l1).Perm l1 := List.perm_insertionSort (@keyLe α) l1
  have hp2 : (sortPairsByKey l2).Perm l2 := List.perm_insertionSort (@keyLe α) l2
  refine List.eq_of_perm_of_sorted ((hp1.trans h).trans hp2.symm)
    (strictOf _ ?_ (List.sorted_insertionSort (@keyLe α) l1))
    (strictOf _ ?_ (List.sorted_insertionSort (@keyLe α) l2))
  · exact ((hp1.map Prod.fst).nodup_iff).mpr hn
  · exact ((hp2.map Prod.fst).nodup_iff).mpr hn2

/-- `canonFields` is the per-field map of `canon`. -/
theorem canonFields_eq_map (fs : List (String × Json)) :
    canonFields fs = fs.map fun p => (p.1, canon p.2) := by
  induction fs with
  | nil => rfl
  | cons p rest ih => simp [canonFields, ih]

/-- `canonFields` keeps the keys. -/
theorem map_fst_canonFields (fs : List (String × Json)) :
    (canonFields fs).map Prod.fst = fs.map Prod.fst := by
  rw [canonFields_eq_map]
  simp

/-- `jwfFields` is the conjunction of `jwf` over the field values. -/
theorem jwfFields_iff (fs : List (String × Json)) :
    jwfFields fs = true ↔ ∀ p ∈ fs, jwf p.2 = true := by
  induction fs with
  | nil => simp [jwfFields]
  | cons p rest ih => simp [jwfFields, Bool.and_eq_true, ih]

/-- `jwfList` is the conjunction of `jwf` over the elements. -/
theorem jwfList_iff (xs : List Json) :
    jwfList xs = true ↔ ∀ x ∈ xs, jwf x = true := by
  induction xs with
  | nil => simp [jwfList]
  | cons x rest ih => simp [jwfList, Bool.and_eq_true, ih]

/-- Key reordering permutes the top-level key list. -/
theorem jequiv_objKeys_perm {a b : Json} (h : JEquiv a b) :
    (objKeys a).Perm (objKeys b) := by
  induction h with
  | null => exact List.Perm.refl _
  | bool b => exact List.Perm.refl _
  | num n => exact List.Perm.refl _
  | str s => exact List.Perm.refl _
  | arr_nil => exact List.Perm.refl _
  | arr_cons _ _ _ _ => exact List.Perm.refl _
  | obj_perm hp => exact hp.map Prod.fst
  | obj_cons k _ _ _ ih2 => exact List.Perm.cons k ih2
  | trans _ _ ih1 ih2 => exact ih1.trans ih2

/-- Key reordering preserves well-formedness. -/
theorem jequiv_jwf {a b : Json} (h : JEquiv a b) (hw : jwf a = true) : jwf b = true := by
  induction h with
  | null => exact hw
  | bool b => exact hw
  | num n => exact hw
  | str s => exact hw
  | arr_nil => exact hw
  | arr_cons hxy hxs ih1 ih2 =>
    have hx : jwf _ = true := (and_true_split hw).1
    have hrest := (and_true_split hw).2
    exact and_true_join (ih1 hx) (ih2 hrest)
  | obj_perm hp =>
    rename_i fs gs
    have h1 := and_true_split hw
    have hnd : (fs.map Prod.fst).Nodup := by simpa using h1.1
    refine and_true_join (by simpa using ((hp.map Prod.fst).nodup_iff).mp hnd) ?_
    rw [jwfFields_iff]
    intro p hp2
    exact (jwfFields_iff fs).mp h1.2 p (hp.mem_iff.mpr hp2)
  | obj_cons k hvw hfs ih1 ih2 =>
    rename_i v w fs gs
    have h1 := and_true_split hw
    have h2 := and_true_split h1.2
    have hndk : (k :: fs.map Prod.fst).Nodup := by simpa using h1.1
    have hwfs : jwf (.obj fs) = true :=
      and_true_join (by simpa using hndk.of_cons) h2.2
    have hwgs := ih2 hwfs
    have h3 := and_true_split hwgs
    have hkperm : (k :: fs.map Prod.fst).Perm (k :: gs.map Prod.fst) :=
      List.Perm.cons k (by simpa [objKeys] using jequiv_objKeys_perm hfs)
    refine and_true_join (by simpa using hkperm.nodup_iff.mp hndk) ?_
    exact and_true_join (ih1 h2.1) h3.2
  | trans hab hbc ih1 ih2 => exact ih2 (ih1 hw)

/-- The heart of C10: recursive key sorting maps key-reordered
well-formed documents to the same canonical document. -/
theorem canon_eq_of_jequiv {a b : Json} (h : JEquiv a b) (hw : jwf a = true) :
    canon a = canon b := by
  induction h with
  | null => rfl
  | bool b => rfl
  | num n => rfl
  | str s => rfl
  | arr_nil => rfl
  | arr_cons hxy hxs ih1 ih2 =>
    have hx : jwf _ = true := (and_true_split hw).1
    have hrest := (and_true_split hw).2
    have he1 := ih1 hx
    have he2 := ih2 hrest
    have he2' := (Json.arr.injEq _ _).mp he2
    show Json.arr (canon _ :: canonList _) = Json.arr (canon _ :: canonList _)
    rw [he1, he2']
  | obj_perm hp =>
    rename_i fs gs
    have h1 := and_true_split hw
    have hnd : ((canonFields fs).map Prod.fst).Nodup := by
      rw [map_fst_canonFields]
      simpa using h1.1
    have hperm : (canonFields fs).Perm (canonFields gs) := by
      rw [canonFields_eq_map, canonFields_eq_map]
      exact hp.map _
    show Json.obj (sortPairsByKey (canonFields fs)) = Json.obj (sortPairsByKey (canonFields gs))
    rw [sortPairsByKey_eq_of_perm_nodup hperm hnd]
  | obj_cons k hvw hfs ih1 ih2 =>
    rename_i v w fs gs
    have h1 := and_true_split hw
    have h2 := and_true_split h1.2
    have hndk : (k :: fs.map Prod.fst).Nodup := by simpa using h1.1
    have hwfs : jwf (.obj fs) = true :=
      and_true_join (by simpa using hndk.of_cons) h2.2
    have hev : canon v = canon w := ih1 h2.1
    have hsort := (Json.obj.injEq _ _).mp (ih2 hwfs)
    have hperm : (canonFields fs).Perm (canonFields gs) := by
      have p1 := List.perm_insertionSort (@keyLe Json) (canonFields fs)
      have p2 := List.perm_insertionSort (@keyLe Json) (canonFields gs)
      have p2' : (sortPairsByKey (canonFields fs)).Perm (canonFields gs) := by
        rw [hsort]; exact p2
      exact p1.symm.trans p2' 
    have hpermc : ((k, canon v) :: canonFields fs).Perm ((k, canon v) :: canonFields gs) :=
      List.Perm.cons _ hperm
    have hndc : (((k, canon v) :: canonFields fs).map Prod.fst).Nodup := by
      simpa [map_fst_canonFields] using hndk
    show Json.obj (sortPairsByKey ((k, canon v) :: canonFields fs)) =
      Json.obj (sortPairsByKey ((k, canon w) :: canonFields gs))
    rw [← hev, sortPairsByKey_eq_of_perm_nodup hpermc hndc]
  | trans hab hbc ih1 ih2 =>
    exact (ih1 hw).trans (ih2 (jequiv_jwf hab hw))

/-- A JSON body that parses normalizes to its sorted-compact dump (no
route ignore). -/
theorem normalize_body_json_parses (b ct : String) (v : Json) (hct : ct ≠ "")
    (hctj : pyContains ct "application/json" = true) (h : json_loads b = some v) :
    matching.normalize_body (some b) (some ct) none = some (dumpsSorted v) := by
  have ht : pyTruthyStr (some ct) = true := by simp [pyTruthyStr, hct]
  simp only [matching.normalize_body, ht, Option.getD_some, hctj, and_self, if_true, h]

/-- C10: two requests whose JSON bodies are equal up to object-key
reordering at any nesting depth (and well-formed, as every Python-parsed
document is) produce equal matching keys: the body field is the
recursive sorted-key dump, which is reorder-invariant at every depth. -/
theorem C10_json_key_order_any_depth (r : RecordedRequest) (b1 b2 ct : String)
    (ignore_headers : Option (List String)) (v1 v2 : Json)
    (hct : ct ≠ "") (hctj : pyContains ct "application/json" = true)
    (h1 : json_loads b1 = some v1) (h2 : json_loads b2 = some v2)
    (heq : JEquiv v1 v2) (hw : jwf v1 = true) :
    matching.compute_matching_key { r with body := some b1, content_type := some ct }
        ignore_headers none =
      matching.compute_matching_key { r with body := some b2, content_type := some ct }
        ignore_headers none := by
  simp only [matching.compute_matching_key, MatchingKey.mk.injEq, and_true, true_and]
  rw [show Option.map (fun ri : RouteIgnoreConfig => ri.body_fields) none =
      (none : Option (List String)) from rfl]
  rw [normalize_body_json_parses b1 ct v1 hct hctj h1,
    normalize_body_json_parses b2 ct v2 hct hctj h2]
  exact congrArg (fun j => some (serialize j)) (canon_eq_of_jequiv heq hw)

/-- C10 witness: bodies reordered at the top level and inside a nested
object give the same key, whose body canonicalizes to the fully sorted
dump. -/
theorem C10_json_key_order_any_depth_witness :
    matching.compute_matching_key reqJ1 none none =
      matching.compute_matching_key reqJ2 none none ∧
    (matching.compute_matching_key reqJ1 none none).body =
      some "\x7b\"a\":3,\"b\":\x7b\"c\":2,\"d\":1\x7d\x7d" := by
  constructor
  · refine C10_json_key_order_any_depth reqJ bodyJ1 bodyJ2 "application/json"
      none valJ1 valJ2 (by decide) rfl rfl rfl ?_ rfl
    exact JEquiv.trans
      (JEquiv.obj_cons "b"
        (JEquiv.obj_perm (List.Perm.swap ("c", Json.num 2) ("d", Json.num 1) []))
        (JEquiv.obj_perm (List.Perm.refl [("a", Json.num 3)])))
      (JEquiv.obj_perm
        (List.Perm.swap ("a", Json.num 3)
          ("b", Json.obj [("c", Json.num 2), ("d", Json.num 1)]) []))
  · decide

end VcrProxy
